import Mathlib

/-!
Verification development for the socialbot content-discovery core.

Shallow embedding of the Python sources under `src/ig_researcher/`:
`browser/rate_limiter.py` (rate governor), `browser/actions.py`
(wall classification, search with scroll/merge loop), `browser/humanize.py`
(`scroll_to_load_more`), and `agent/tools/fetch.py` (fetch-and-analyze
pipeline aggregation).

Modelling conventions: timestamps and float quantities are rationals
(seconds since an arbitrary epoch); random draws (jitter, cooldown minutes)
are explicit parameters; Python dicts keyed by strings are association
lists preserving insertion order; fallible DOM probes return `Except`.
-/

namespace Socialbot

/-- Lower-case a string character by character (models Python `str.lower`
for the ASCII strings used by the source). -/
def strLower (s : String) : String := String.mk (s.toList.map Char.toLower)

/-- Character-list prefix test used by the substring scan. -/
def charsHavePre : List Char → List Char → Bool
  | [], _ => true
  | _ :: _, [] => false
  | p :: ps, c :: cs => p == c && charsHavePre ps cs

/-- Character-list containment scan. -/
def charsContain (pat : List Char) : List Char → Bool
  | [] => pat.isEmpty
  | c :: rest => charsHavePre pat (c :: rest) || charsContain pat rest

/-- Substring containment test (models the Python `in` operator on
strings). -/
def strContains (s pat : String) : Bool := charsContain pat.toList s.toList

/-! ## Rate limiter (`browser/rate_limiter.py`) -/

/-- `RateLimitState` enumeration from `rate_limiter.py`. -/
inductive RateLimitState where
  | OK
  | SOFT_LIMIT
  | HARD_LIMIT
  | BLOCKED
  deriving DecidableEq, Repr

/-- `RateLimitConfig` dataclass with its source defaults. -/
structure RateLimitConfig where
  max_searches_per_hour : Nat := 20
  max_profile_views_per_hour : Nat := 50
  max_scroll_actions_per_hour : Nat := 100
  initial_backoff_seconds : ℚ := 5
  max_backoff_seconds : ℚ := 300
  backoff_multiplier : ℚ := 2
  jitter_factor : ℚ := 3/10
  max_consecutive_failures : Nat := 5
  block_cooldown_min_minutes : Nat := 30
  block_cooldown_max_minutes : Nat := 120
  deriving DecidableEq, Repr

/-- The default `RateLimitConfig()`. -/
def defaultConfig : RateLimitConfig := {}

/-- `ActionCounter` dataclass: a count within a discreetly resetting
window. `window_start` is a timestamp in seconds, `window_duration` a
duration in seconds (source default: one hour). -/
structure ActionCounter where
  count : Nat
  window_start : ℚ
  window_duration : ℚ
  deriving DecidableEq, Repr

/-- A fresh `ActionCounter()` created at time `now`. -/
def ActionCounter.new (now : ℚ) : ActionCounter :=
  { count := 0, window_start := now, window_duration := 3600 }

/-- `ActionCounter._maybe_reset_window`: reset the window if it has
expired at time `now`. -/
def ActionCounter.maybeReset (c : ActionCounter) (now : ℚ) : ActionCounter :=
  if c.window_duration < now - c.window_start then
    { count := 0, window_start := now, window_duration := c.window_duration }
  else c

/-- `ActionCounter.increment` at time `now`. -/
def ActionCounter.increment (c : ActionCounter) (now : ℚ) : ActionCounter :=
  let c := c.maybeReset now
  { c with count := c.count + 1 }

/-- `ActionCounter.get_count` at time `now`. -/
def ActionCounter.getCount (c : ActionCounter) (now : ℚ) : Nat :=
  (c.maybeReset now).count

/-- The `RateLimiter` mutable state: `_counters` (dict as insertion-ordered
association list), `_current_backoff`, `_consecutive_failures`,
`_blocked_until`. -/
structure RateLimiter where
  counters : List (String × ActionCounter)
  current_backoff : ℚ
  consecutive_failures : Nat
  blocked_until : Option ℚ
  deriving DecidableEq, Repr

/-- A freshly constructed `RateLimiter`. -/
def freshRL : RateLimiter :=
  { counters := [], current_backoff := 0, consecutive_failures := 0,
    blocked_until := none }

/-- Lookup in the counters association list (dict access). -/
def lookupC (typ : String) : List (String × ActionCounter) → Option ActionCounter
  | [] => none
  | (k, c) :: rest => if k = typ then some c else lookupC typ rest

/-- Replace the value stored at a key of the counters association list. -/
def replaceC (typ : String) (c : ActionCounter) :
    List (String × ActionCounter) → List (String × ActionCounter)
  | [] => []
  | (k, c0) :: rest =>
      if k = typ then (k, c) :: rest else (k, c0) :: replaceC typ c rest

/-- `RateLimiter._get_counter`: get the counter for an action type,
creating (and inserting) a fresh one at time `now` if absent. Returns the
counter together with the possibly extended state, mirroring the
side effect of inserting into the dict. -/
def RateLimiter.getOrCreate (s : RateLimiter) (typ : String) (now : ℚ) :
    ActionCounter × RateLimiter :=
  match lookupC typ s.counters with
  | some c => (c, s)
  | none =>
      let c := ActionCounter.new now
      (c, { s with counters := s.counters ++ [(typ, c)] })

/-- `RateLimiter._get_limit`: per-action-type hourly caps, defaulting to
50 for unknown action types. -/
def RateLimiter.getLimit (cfg : RateLimitConfig) (typ : String) : Nat :=
  if typ = "search" then cfg.max_searches_per_hour
  else if typ = "profile_view" then cfg.max_profile_views_per_hour
  else if typ = "scroll" then cfg.max_scroll_actions_per_hour
  else 50

/-- The counter-based portion of `check_state` (reached when not
blocked): compare the windowed count against the hourly cap and its 80
percent threshold. -/
def RateLimiter.checkStateCount (cfg : RateLimitConfig) (s : RateLimiter)
    (typ : String) (now : ℚ) : RateLimitState × RateLimiter :=
  let r := s.getOrCreate typ now
  let limit := RateLimiter.getLimit cfg typ
  let current := r.1.getCount now
  if limit ≤ current then (RateLimitState.HARD_LIMIT, r.2)
  else if (limit : ℚ) * (8/10) ≤ (current : ℚ) then
    (RateLimitState.SOFT_LIMIT, r.2)
  else (RateLimitState.OK, r.2)

/-- `RateLimiter.check_state` at time `now`. Returns the derived state and
the (possibly counter-extended) limiter, mirroring the `_get_counter`
insertion side effect. -/
def RateLimiter.checkState (cfg : RateLimitConfig) (s : RateLimiter)
    (typ : String) (now : ℚ) : RateLimitState × RateLimiter :=
  match s.blocked_until with
  | some d =>
      if now < d then (RateLimitState.BLOCKED, s)
      else RateLimiter.checkStateCount cfg s typ now
  | none => RateLimiter.checkStateCount cfg s typ now

/-- `RateLimiter._calculate_backoff` with the uniform jitter draw
`u ∈ [-1, 1]` made explicit. -/
def calculateBackoff (cfg : RateLimitConfig) (backoff : ℚ) (u : ℚ) : ℚ :=
  let base :=
    if backoff = 0 then cfg.initial_backoff_seconds
    else min (backoff * cfg.backoff_multiplier) cfg.max_backoff_seconds
  let jitter := base * cfg.jitter_factor * u
  max (1/10) (base + jitter)

/-- `RateLimiter.record_action` at time `now`: increment the action type
counter, reset `consecutive_failures` and `current_backoff`. -/
def RateLimiter.recordAction (s : RateLimiter) (typ : String) (now : ℚ) :
    RateLimiter :=
  match lookupC typ s.counters with
  | some c =>
      { s with counters := replaceC typ (c.increment now) s.counters,
               consecutive_failures := 0, current_backoff := 0 }
  | none =>
      { s with counters :=
                 s.counters ++ [(typ, (ActionCounter.new now).increment now)],
               consecutive_failures := 0, current_backoff := 0 }

/-- `RateLimiter.record_failure` at time `now`, with the jitter draw `u`
and the cooldown draw `draw ∈ [min_minutes, max_minutes]` explicit. The
`typ` argument is unused by the source beyond logging. -/
def RateLimiter.recordFailure (cfg : RateLimitConfig) (s : RateLimiter)
    (_typ : String) (isRateLimit : Bool) (now u : ℚ) (draw : Nat) :
    RateLimiter :=
  let failures := s.consecutive_failures + 1
  let backoff :=
    if isRateLimit = true ∨ 3 ≤ failures then
      calculateBackoff cfg s.current_backoff u
    else s.current_backoff
  let blocked :=
    if cfg.max_consecutive_failures ≤ failures then
      some (now + (draw : ℚ) * 60)
    else s.blocked_until
  { s with consecutive_failures := failures, current_backoff := backoff,
           blocked_until := blocked }

/-- `RateLimiter.wait_if_needed` at time `now` (sleeping modelled away;
`u` is the jitter draw used when a hard limit forces a backoff sleep). -/
def RateLimiter.waitIfNeeded (cfg : RateLimitConfig) (s : RateLimiter)
    (typ : String) (now u : ℚ) : RateLimiter :=
  let r := RateLimiter.checkState cfg s typ now
  match r.1 with
  | RateLimitState.BLOCKED => { r.2 with blocked_until := none }
  | RateLimitState.HARD_LIMIT =>
      { r.2 with current_backoff := calculateBackoff cfg r.2.current_backoff u }
  | _ => r.2

/-- `RateLimiter.reset`: clear all rate limit state. -/
def RateLimiter.reset (_s : RateLimiter) : RateLimiter := freshRL

/-- One `record_failure` call with its explicit time and random draws. -/
structure FailCall where
  isRL : Bool
  now : ℚ
  u : ℚ
  draw : Nat
  deriving DecidableEq, Repr

/-- Apply a sequence of `record_failure` calls left to right. -/
def recordFailuresSeq (cfg : RateLimitConfig) (typ : String)
    (calls : List FailCall) (s : RateLimiter) : RateLimiter :=
  calls.foldl (fun st c => st.recordFailure cfg typ c.isRL c.now c.u c.draw) s

/-! ## Instagram actions (`browser/actions.py`) -/

/-- `SELECTORS["login_form"]`. -/
def selLoginForm : String := "form[id=\"loginForm\"]"

/-- `SELECTORS["logged_in_indicator"]`. -/
def selLoggedIn : String :=
  "a[href*=\"/direct/inbox/\"], svg[aria-label=\"Direct\"]"

/-- `CHALLENGE_SELECTORS` from `InstagramActions`. -/
def challengeSelectors : List String :=
  ["form[action*=\"/challenge/\"]",
   "input[name=\"security_code\"]",
   "input[name=\"verificationCode\"]",
   "input[name=\"email_or_phone\"]"]

/-- A `SearchResult`-shaped item extracted from the DOM. `shortcode` and
`thumbnail_url` are optional; Python treats `None` and the empty string as
falsy, which the merge logic tests for. -/
structure Item where
  shortcode : Option String
  content_type : String
  url : String
  thumbnail_url : Option String
  deriving DecidableEq, Repr

/-- Python truthiness test for an optional string field: falsy when the
value is absent or empty. -/
def optFalsy : Option String → Bool
  | none => true
  | some s => s = ""

/-- Abstract driver for one loaded page: its URL, the outcome of each
query-selector probe (which may throw), the cookie read (which may throw),
whether `wait_for_selector` found a result link in time, and the item
batch returned by the n-th `_collect_items` evaluation. -/
structure PageScript where
  url : String
  querySelector : String → Except String Bool
  cookies : Except String (List (String × String))
  waitForResults : Bool
  collects : Nat → List Item

/-- The DOM-probe loop inside `check_for_challenge`: a probe match returns
true, a non-match or a thrown probe moves on to the next selector. -/
def challengeProbeLoop (p : PageScript) : List String → Bool
  | [] => false
  | sel :: rest =>
      match p.querySelector sel with
      | Except.ok true => true
      | Except.ok false => challengeProbeLoop p rest
      | Except.error _ => challengeProbeLoop p rest

/-- `InstagramActions.check_for_challenge`: URL marker scan, then the
probe loop. Never raises. -/
def checkForChallenge (p : PageScript) : Bool :=
  let url := strLower p.url
  if (["challenge", "checkpoint"].any fun ind => strContains url ind) then
    true
  else challengeProbeLoop p challengeSelectors

/-- `InstagramActions._is_login_required`. The login-form and logged-in
indicator probes are not guarded: a thrown probe propagates (as
`Except.error`). Only the cookie read is guarded, defaulting to an empty
cookie list. -/
def isLoginRequired (p : PageScript) : Except String Bool :=
  let url := strLower p.url
  if strContains url "login" || strContains url "accounts/login" then
    Except.ok true
  else
    match p.querySelector selLoginForm with
    | Except.error e => Except.error e
    | Except.ok true => Except.ok true
    | Except.ok false =>
        match p.querySelector selLoggedIn with
        | Except.error e => Except.error e
        | Except.ok true => Except.ok false
        | Except.ok false =>
            let cookies :=
              match p.cookies with
              | Except.ok cs => cs
              | Except.error _ => []
            Except.ok
              (! cookies.any fun c => c.1 == "sessionid" && c.2 != "")

/-- Lookup in the dedup map (`seen.get(key)`), an insertion-ordered
association list keyed by shortcode. -/
def lookupKey (k : String) : List (String × Item) → Option Item
  | [] => none
  | (k0, it) :: rest => if k0 = k then some it else lookupKey k rest

/-- Update the entry stored at a key of the dedup map in place. -/
def setThumb (k : String) (t : Option String) :
    List (String × Item) → List (String × Item)
  | [] => []
  | (k0, it) :: rest =>
      if k0 = k then (k0, { it with thumbnail_url := t }) :: rest
      else (k0, it) :: setThumb k t rest

/-- One step of `_merge_items`: skip falsy keys, insert unseen keys, and
for duplicate keys backfill a missing thumbnail only. -/
def mergeOne (seen : List (String × Item)) (item : Item) :
    List (String × Item) :=
  match item.shortcode with
  | none => seen
  | some key =>
      if key = "" then seen
      else
        match lookupKey key seen with
        | none => seen ++ [(key, item)]
        | some existing =>
            if optFalsy existing.thumbnail_url &&
               ! optFalsy item.thumbnail_url then
              setThumb key item.thumbnail_url seen
            else seen

/-- `_merge_items`: merge a batch of extracted items into the dedup map. -/
def mergeItems (items : List Item) (seen : List (String × Item)) :
    List (String × Item) :=
  items.foldl mergeOne seen

/-- The dedup map after merging collection batches `0..n` into an
initially empty map (batch 0 is the initial `_collect_items`, batch `k`
the one taken after the k-th scroll iteration). -/
def mergedSeen (collects : Nat → List Item) : Nat → List (String × Item)
  | 0 => mergeItems (collects 0) []
  | n + 1 => mergeItems (collects (n + 1)) (mergedSeen collects n)

/-- The scroll budget computed by `search`:
`min(40, max(5, ceil(limit / 10) + 6))`. -/
def searchMaxScrolls (limit : Nat) : Nat :=
  min 40 (max 5 ((limit + 9) / 10 + 6))

/-- The scroll loop of `search`, with fuel equal to the remaining scroll
budget. Arguments: `cur` is `current_count`, `ng` is `no_growth`, `seen`
the dedup map, `idx` the index of the next collection batch. Returns the
number of scroll iterations performed and the final dedup map. -/
def scrollGo (collects : Nat → List Item) (limit : Nat) :
    Nat → Nat → Nat → List (String × Item) → Nat → Nat × List (String × Item)
  | 0, _, _, seen, _ => (0, seen)
  | fuel + 1, cur, ng, seen, idx =>
      let seen2 := mergeItems (collects idx) seen
      let newCount := seen2.length
      if newCount ≤ cur then
        if 3 ≤ ng + 1 then (1, seen2)
        else if limit ≤ cur then (1, seen2)
        else
          let r := scrollGo collects limit fuel cur (ng + 1) seen2 (idx + 1)
          (r.1 + 1, r.2)
      else
        if limit ≤ newCount then (1, seen2)
        else
          let r := scrollGo collects limit fuel newCount 0 seen2 (idx + 1)
          (r.1 + 1, r.2)

/-- The virtual `(current_count, no_growth)` pair after `n` scroll
iterations, ignoring loop exits (it agrees with the real loop while the
loop is still running). -/
def loopCtr (collects : Nat → List Item) : Nat → Nat × Nat
  | 0 => ((mergedSeen collects 0).length, 0)
  | n + 1 =>
      let s := loopCtr collects n
      let nc := (mergedSeen collects (n + 1)).length
      if nc ≤ s.1 then (s.1, s.2 + 1) else (nc, 0)

/-- The scroll loop stop condition observed at the end of scroll iteration
`n ≥ 1`: three consecutive no-growth iterations, or the unique count
reached the requested limit. -/
def stopAfter (collects : Nat → List Item) (limit : Nat) (n : Nat) : Prop :=
  3 ≤ (loopCtr collects n).2 ∨ limit ≤ (loopCtr collects n).1

/-- Outcome of one modelled `search` call. -/
inductive SearchOutcome where
  | authRequired
  | challengeRequired
  | pageError (msg : String)
  | results (items : List Item)
  deriving DecidableEq, Repr

/-- Result of one modelled `search` call: the rate limiter state after the
call, the outcome, the number of scroll iterations performed, and the
final dedup map. -/
structure SearchRunResult where
  rl : RateLimiter
  outcome : SearchOutcome
  scrollIters : Nat
  seenFinal : List (String × Item)

/-- The governor-relevant control flow of `InstagramActions.search`
(navigation, delays and page reopening modelled away; the page is assumed
to stay open). `u0` is the jitter draw of the initial `wait_if_needed`;
`u1, d1` and `u2, d2` are the draws of the at most two `record_failure`
calls a failing run performs. A wall detection records a failure, raises,
and the generic exception handler of `search` records a second failure
after classifying the message. -/
def searchRun (cfg : RateLimitConfig) (rl0 : RateLimiter) (p : PageScript)
    (content_type : String) (limit : Nat) (now u0 u1 u2 : ℚ)
    (d1 d2 : Nat) : SearchRunResult :=
  let rl := RateLimiter.waitIfNeeded cfg rl0 "search" now u0
  match isLoginRequired p with
  | Except.error e =>
      let irl := strContains (strLower e) "rate" || strContains e "429"
      { rl := rl.recordFailure cfg "search" irl now u1 d1,
        outcome := SearchOutcome.pageError e, scrollIters := 0,
        seenFinal := [] }
  | Except.ok true =>
      let rl2 := rl.recordFailure cfg "search" false now u1 d1
      let msg := "Instagram login required"
      let irl := strContains (strLower msg) "rate" || strContains msg "429"
      { rl := rl2.recordFailure cfg "search" irl now u2 d2,
        outcome := SearchOutcome.authRequired, scrollIters := 0,
        seenFinal := [] }
  | Except.ok false =>
      if checkForChallenge p then
        let rl2 := rl.recordFailure cfg "search" false now u1 d1
        let msg :=
          "Instagram challenge detected. Please resolve it in the browser and retry."
        let irl := strContains (strLower msg) "rate" || strContains msg "429"
        { rl := rl2.recordFailure cfg "search" irl now u2 d2,
          outcome := SearchOutcome.challengeRequired, scrollIters := 0,
          seenFinal := [] }
      else if p.waitForResults = false then
        { rl := rl.recordAction "search" now,
          outcome := SearchOutcome.results [], scrollIters := 0,
          seenFinal := [] }
      else
        let seen0 := mergedSeen p.collects 0
        let c0 := seen0.length
        let r :=
          if c0 < limit then
            scrollGo p.collects limit (searchMaxScrolls limit) c0 0 seen0 1
          else (0, seen0)
        let vals := r.2.map Prod.snd
        let filtered :=
          if content_type = "all" then vals
          else if content_type = "reels" then
            vals.filter fun it => it.content_type = "reel"
          else vals.filter fun it => it.content_type = "post"
        { rl := rl.recordAction "search" now,
          outcome := SearchOutcome.results (filtered.take limit),
          scrollIters := r.1, seenFinal := r.2 }

/-! ## Human behavior (`browser/humanize.py`) -/

/-- The loop body of `HumanBehavior.scroll_to_load_more`, with the count
probe made explicit: `probe i` is the i-th measured
`document.querySelectorAll(count_selector).length`. Arguments: fuel
(remaining allowed scrolls), `cur` is `current_count`, `nc` is
`no_change_count`, `idx` the index of the next probe. Returns the number
of probe iterations performed and the returned count. -/
def stlmGo (probe : Nat → Nat) (target : Nat) :
    Nat → Nat → Nat → Nat → Nat × Nat
  | 0, cur, _, _ => (0, cur)
  | fuel + 1, cur, nc, idx =>
      let new := probe idx
      if target ≤ new then (1, new)
      else if new = cur then
        if 3 ≤ nc + 1 then (1, new)
        else
          let r := stlmGo probe target fuel cur (nc + 1) (idx + 1)
          (r.1 + 1, r.2)
      else
        let r := stlmGo probe target fuel new 0 (idx + 1)
        (r.1 + 1, r.2)

/-- `HumanBehavior.scroll_to_load_more` (source default
`max_scrolls = 20`). -/
def scrollToLoadMore (probe : Nat → Nat) (target : Nat)
    (maxScrolls : Nat) : Nat × Nat :=
  stlmGo probe target maxScrolls 0 0 0

/-- The virtual `(current_count, no_change_count)` pair after `n` probes
of the `scroll_to_load_more` loop, ignoring loop exits. -/
def stlmState (probe : Nat → Nat) : Nat → Nat × Nat
  | 0 => (0, 0)
  | n + 1 =>
      let s := stlmState probe n
      let new := probe n
      if new = s.1 then (s.1, s.2 + 1) else (new, 0)

/-- The `scroll_to_load_more` stop condition observed at probe `n`: the
target was reached, or the count was unchanged for the third consecutive
time. -/
def stlmStop (probe : Nat → Nat) (target : Nat) (n : Nat) : Prop :=
  target ≤ probe n ∨ 3 ≤ (stlmState probe (n + 1)).2

/-! ## Fetch-and-analyze pipeline (`agent/tools/fetch.py`) -/

deriving instance DecidableEq for Except

/-- The fields of an `instaloader.Post` read by `_fetch_single`. -/
structure IgPost where
  owner_username : String
  caption : Option String
  is_video : Bool
  likes : Int
  comments : Int
  date : Option String
  video_url : Option String
  video_duration : Option ℚ
  deriving DecidableEq, Repr

/-- The `post_data` record built by `_fetch_single`; `analysis` is the
key attached later by the aggregation loop. -/
structure PostData where
  shortcode : String
  url : String
  owner_username : String
  caption : String
  is_video : Bool
  likes : Int
  comments : Int
  date : Option String
  video_url : Option String
  video_duration : Option ℚ
  analysis : Option (Except String String)
  deriving DecidableEq, Repr

/-- A `{"shortcode": ..., "error": ...}` error record. -/
structure FetchErr where
  shortcode : String
  error : String
  deriving DecidableEq, Repr

/-- An entry of the `analyses` response list. -/
structure AnalysisEntry where
  shortcode : String
  url : String
  analysis : Except String String
  deriving DecidableEq, Repr

/-- The `post_data` record `_fetch_single` builds from a fetched post;
the `video_url` key exists only for videos. -/
def builtPost (code : String) (post : IgPost) : PostData :=
  { shortcode := code,
    url := "https://www.instagram.com/p/" ++ code ++ "/",
    owner_username := post.owner_username,
    caption := post.caption.getD "",
    is_video := post.is_video,
    likes := post.likes,
    comments := post.comments,
    date := post.date,
    video_url := if post.is_video then post.video_url else none,
    video_duration := if post.is_video then post.video_duration else none,
    analysis := none }

/-- Attach an analysis record to a `post_data` record (the
`post_data["analysis"] = analysis` step of the aggregation loop). -/
def attachAnalysis (p : PostData) (a : Except String String) : PostData :=
  { p with analysis := some a }

/-- `_fetch_single`: build `post_data` from a fetched post, or an error
record. `fetch` abstracts `instaloader.Post.from_shortcode`. -/
def fetchSingle (fetch : String → Except String IgPost) (code : String) :
    Option PostData × Option FetchErr :=
  match fetch code with
  | Except.ok post => (some (builtPost code post), none)
  | Except.error e => (none, some { shortcode := code, error := e })

/-- `_process` of `fetch_and_analyze_posts` for one shortcode: fetch, and
when the record carries a truthy `video_url`, submit it for analysis; an
analysis exception is caught and stored as an error-valued analysis.
`analyze` abstracts `_analyze_single_video` applied to the video URL. -/
def processOne (fetch : String → Except String IgPost)
    (analyze : String → Except String String) (code : String) :
    Option PostData × Option FetchErr × Option (Except String String) :=
  let fr := fetchSingle fetch code
  match fr.1 with
  | some post =>
      if ! optFalsy post.video_url then
        (some post, fr.2, some (analyze (post.video_url.getD "")))
      else (some post, fr.2, none)
  | none => (none, fr.2, none)

/-- The aggregation loop of `fetch_and_analyze_posts`: build the `posts`,
`error_details` and `analyses` lists in task order, attaching each
analysis to its post record. -/
def aggregateFA :
    List (Option PostData × Option FetchErr × Option (Except String String)) →
    List PostData × List FetchErr × List AnalysisEntry
  | [] => ([], [], [])
  | (pd, err, an) :: rest =>
      let r := aggregateFA rest
      let pPart : List PostData :=
        match pd, an with
        | some p, some a => [{ p with analysis := some a }]
        | some p, none => [p]
        | none, _ => []
      let ePart : List FetchErr :=
        match err with
        | some e => [e]
        | none => []
      let aPart : List AnalysisEntry :=
        match pd, an with
        | some p, some a =>
            [{ shortcode := p.shortcode, url := p.url, analysis := a }]
        | _, _ => []
      (pPart ++ r.1, ePart ++ r.2.1, aPart ++ r.2.2)

/-- The aggregate response of `fetch_and_analyze_posts`. -/
structure FAResponse where
  fetched : Nat
  errors : Nat
  posts : List PostData
  analyses : List AnalysisEntry
  analyzed : Nat
  analysis_failed : Nat
  error_details : List FetchErr
  deriving DecidableEq, Repr

/-- Truthiness of the `error` key of a stored analysis record. -/
def analysisHasErr : Except String String → Bool
  | Except.error _ => true
  | Except.ok _ => false

/-- `fetch_and_analyze_posts` past its configuration guards: run the
per-item pipeline over every shortcode and aggregate the result batch. -/
def fetchAndAnalyzePosts (codes : List String)
    (fetch : String → Except String IgPost)
    (analyze : String → Except String String) : FAResponse :=
  let agg := aggregateFA (codes.map (processOne fetch analyze))
  { fetched := agg.1.length,
    errors := agg.2.1.length,
    posts := agg.1,
    analyses := agg.2.2,
    analyzed := (agg.2.2.filter fun a => ! analysisHasErr a.analysis).length,
    analysis_failed :=
      (agg.2.2.filter fun a => analysisHasErr a.analysis).length,
    error_details := agg.2.1 }

/-! ## Auxiliary definitions used by the statements -/

/-- Whether an `Except`-valued probe completed without raising. -/
def probeOk (e : Except String Bool) : Bool :=
  match e with
  | Except.ok _ => true
  | Except.error _ => false

/-- Whether a query-selector probe found a match, with a thrown probe
counting as a non-match. -/
def probeHit (p : PageScript) (sel : String) : Bool :=
  match p.querySelector sel with
  | Except.ok b => b
  | Except.error _ => false

/-- The shortcode keys of a dedup map. -/
def keysOf (l : List (String × Item)) : List String := l.map Prod.fst

/-- The windowed count `check_state` reads for an action type at time
`now`. -/
def windowedCount (s : RateLimiter) (typ : String) (now : ℚ) : Nat :=
  ((s.getOrCreate typ now).1).getCount now

/-- A block-cooldown deadline lies in the future. -/
def blockActive (s : RateLimiter) (now : ℚ) : Prop :=
  ∃ d, s.blocked_until = some d ∧ now < d

/-- A page script presenting the login wall (login URL, no results). -/
def loginWallPage : PageScript :=
  { url := "https://www.instagram.com/accounts/login/",
    querySelector := fun _ => Except.ok false,
    cookies := Except.ok [],
    waitForResults := false,
    collects := fun _ => [] }

/-- A page script whose DOM probes all throw (for example because the
page navigated away mid-check). -/
def probeThrowPage : PageScript :=
  { url := "https://www.instagram.com/explore/",
    querySelector := fun _ => Except.error "Execution context was destroyed",
    cookies := Except.ok [],
    waitForResults := true,
    collects := fun _ => [] }

/-- A logged-in results page that yields one unique item initially and
nothing new on any scroll. -/
def stallPage : PageScript :=
  { url := "https://www.instagram.com/explore/search/keyword/?q=shoes",
    querySelector := fun s => Except.ok (s == selLoggedIn),
    cookies := Except.ok [("sessionid", "abc")],
    waitForResults := true,
    collects := fun n =>
      if n = 0 then
        [{ shortcode := some "AAA", content_type := "reel",
           url := "https://www.instagram.com/reel/AAA/",
           thumbnail_url := none }]
      else [] }

/-- A fetched video post used by concrete pipeline runs. -/
def wPost : IgPost :=
  { owner_username := "creator", caption := some "demo", is_video := true,
    likes := 5, comments := 1, date := none,
    video_url := some "https://video.example/x.mp4",
    video_duration := some 12 }

/-- A fetch boundary that fails for the shortcode "bad" and returns
`wPost` for every other shortcode. -/
def wFetch : String → Except String IgPost := fun c =>
  if c = "bad" then Except.error "boom" else Except.ok wPost

/-- An analysis boundary that always succeeds. -/
def wAnalyze : String → Except String String := fun _ => Except.ok "insight"

/-- A limiter already serving a block cooldown (deadline at t = 1000). -/
def blockedLimiter : RateLimiter :=
  { counters := [], current_backoff := 0, consecutive_failures := 0,
    blocked_until := some 1000 }

/-- A limiter whose "search" counter sits at 16 of its hourly cap of 20. -/
def softLimiter : RateLimiter :=
  { counters := [("search",
      { count := 16, window_start := 0, window_duration := 3600 })],
    current_backoff := 0, consecutive_failures := 0, blocked_until := none }

/-! ## Helper lemmas about the rate limiter -/

theorem recordFailuresSeq_cons (cfg : RateLimitConfig) (typ : String)
    (c : FailCall) (calls : List FailCall) (s : RateLimiter) :
    recordFailuresSeq cfg typ (c :: calls) s =
      recordFailuresSeq cfg typ calls
        (s.recordFailure cfg typ c.isRL c.now c.u c.draw) := rfl

theorem recordFailuresSeq_append (cfg : RateLimitConfig) (typ : String)
    (l1 l2 : List FailCall) (s : RateLimiter) :
    recordFailuresSeq cfg typ (l1 ++ l2) s =
      recordFailuresSeq cfg typ l2 (recordFailuresSeq cfg typ l1 s) := by
  simp [recordFailuresSeq, List.foldl_append]

theorem recordFailure_failures (cfg : RateLimitConfig) (s : RateLimiter)
    (typ : String) (b : Bool) (now u : ℚ) (d : Nat) :
    (s.recordFailure cfg typ b now u d).consecutive_failures =
      s.consecutive_failures + 1 := rfl

theorem recordFailuresSeq_failures (cfg : RateLimitConfig) (typ : String) :
    ∀ (calls : List FailCall) (s : RateLimiter),
    (recordFailuresSeq cfg typ calls s).consecutive_failures =
      s.consecutive_failures + calls.length := by
  intro calls
  induction calls with
  | nil => intro s; rfl
  | cons c rest ih =>
      intro s
      rw [recordFailuresSeq_cons, ih, recordFailure_failures]
      simp [List.length_cons]
      omega

theorem recordFailure_blocked_set (cfg : RateLimitConfig) (s : RateLimiter)
    (typ : String) (b : Bool) (now u : ℚ) (d : Nat)
    (h : cfg.max_consecutive_failures ≤ s.consecutive_failures + 1) :
    (s.recordFailure cfg typ b now u d).blocked_until =
      some (now + (d : ℚ) * 60) := by
  simp [RateLimiter.recordFailure, h]

theorem recordFailure_blocked_keep (cfg : RateLimitConfig) (s : RateLimiter)
    (typ : String) (b : Bool) (now u : ℚ) (d : Nat)
    (h : s.consecutive_failures + 1 < cfg.max_consecutive_failures) :
    (s.recordFailure cfg typ b now u d).blocked_until = s.blocked_until := by
  simp only [RateLimiter.recordFailure]
  rw [if_neg (by omega)]

theorem recordFailure_backoff_calc (cfg : RateLimitConfig) (s : RateLimiter)
    (typ : String) (b : Bool) (now u : ℚ) (d : Nat)
    (h : b = true ∨ 3 ≤ s.consecutive_failures + 1) :
    (s.recordFailure cfg typ b now u d).current_backoff =
      calculateBackoff cfg s.current_backoff u := by
  simp only [RateLimiter.recordFailure]
  rw [if_pos h]

theorem recordFailure_backoff_keep (cfg : RateLimitConfig) (s : RateLimiter)
    (typ : String) (now u : ℚ) (d : Nat)
    (h : s.consecutive_failures + 1 < 3) :
    (s.recordFailure cfg typ false now u d).current_backoff =
      s.current_backoff := by
  simp only [RateLimiter.recordFailure]
  rw [if_neg (by simp; omega)]

theorem checkState_blocked (cfg : RateLimitConfig) (s : RateLimiter)
    (typ : String) (now : ℚ) (d : ℚ) (h : s.blocked_until = some d)
    (hlt : now < d) :
    (RateLimiter.checkState cfg s typ now).1 = RateLimitState.BLOCKED := by
  simp [RateLimiter.checkState, h, hlt]

/-- C4: starting from a state with no recorded failures and for any action
type, after exactly `max_consecutive_failures` consecutive `record_failure`
calls with no intervening `record_action`, `check_state` returns BLOCKED
for every action type, and `blocked_until` lies within
`[now + block_cooldown_min_minutes, now + block_cooldown_max_minutes]`
(times in seconds) for every admissible cooldown draw, where `now` is the
time of the last failure. -/
theorem c4_block_after_max_failures (cfg : RateLimitConfig) (s : RateLimiter)
    (typ : String) (calls : List FailCall) (c : FailCall)
    (h0 : s.consecutive_failures = 0)
    (hlen : calls.length + 1 = cfg.max_consecutive_failures)
    (hmin : 0 < cfg.block_cooldown_min_minutes)
    (hd1 : cfg.block_cooldown_min_minutes ≤ c.draw)
    (hd2 : c.draw ≤ cfg.block_cooldown_max_minutes) :
    (recordFailuresSeq cfg typ (calls ++ [c]) s).blocked_until =
      some (c.now + (c.draw : ℚ) * 60) ∧
    c.now + (cfg.block_cooldown_min_minutes : ℚ) * 60 ≤
      c.now + (c.draw : ℚ) * 60 ∧
    c.now + (c.draw : ℚ) * 60 ≤
      c.now + (cfg.block_cooldown_max_minutes : ℚ) * 60 ∧
    ∀ typ2, (RateLimiter.checkState cfg
        (recordFailuresSeq cfg typ (calls ++ [c]) s) typ2 c.now).1 =
      RateLimitState.BLOCKED := by
  have hseq : recordFailuresSeq cfg typ (calls ++ [c]) s =
      (recordFailuresSeq cfg typ calls s).recordFailure cfg typ
        c.isRL c.now c.u c.draw := by
    rw [recordFailuresSeq_append]; rfl
  have hf : (recordFailuresSeq cfg typ calls s).consecutive_failures =
      calls.length := by
    rw [recordFailuresSeq_failures, h0, Nat.zero_add]
  have hb : (recordFailuresSeq cfg typ (calls ++ [c]) s).blocked_until =
      some (c.now + (c.draw : ℚ) * 60) := by
    rw [hseq]
    exact recordFailure_blocked_set _ _ _ _ _ _ _ (by rw [hf]; omega)
  have hdq1 : ((cfg.block_cooldown_min_minutes : ℚ)) ≤ (c.draw : ℚ) := by
    exact_mod_cast hd1
  have hdq2 : ((c.draw : ℚ)) ≤ (cfg.block_cooldown_max_minutes : ℚ) := by
    exact_mod_cast hd2
  refine ⟨hb, by nlinarith, by nlinarith, fun typ2 => ?_⟩
  have hpos : (0 : ℚ) < (c.draw : ℚ) * 60 := by
    have h1 : (1 : ℚ) ≤ (c.draw : ℚ) := by
      have : 1 ≤ c.draw := by omega
      exact_mod_cast this
    nlinarith
  exact checkState_blocked cfg _ typ2 c.now _ hb (by linarith)

/-- Witness for C4 at the default configuration: five non-rate-limited
failures from a fresh limiter, the last at t = 7 with a 45 minute draw. -/
theorem c4_block_after_max_failures_witness :
    (recordFailuresSeq defaultConfig "search"
        ([⟨false, 0, 0, 30⟩, ⟨false, 0, 0, 30⟩, ⟨false, 0, 0, 30⟩,
          ⟨false, 0, 0, 30⟩] ++ [⟨false, 7, 0, 45⟩]) freshRL).blocked_until =
      some (7 + (45 : ℚ) * 60) ∧
    (7 : ℚ) + (30 : ℚ) * 60 ≤ 7 + (45 : ℚ) * 60 ∧
    (7 : ℚ) + (45 : ℚ) * 60 ≤ 7 + (120 : ℚ) * 60 ∧
    ∀ typ2, (RateLimiter.checkState defaultConfig
        (recordFailuresSeq defaultConfig "search"
          ([⟨false, 0, 0, 30⟩, ⟨false, 0, 0, 30⟩, ⟨false, 0, 0, 30⟩,
            ⟨false, 0, 0, 30⟩] ++ [⟨false, 7, 0, 45⟩]) freshRL) typ2 7).1 =
      RateLimitState.BLOCKED :=
  c4_block_after_max_failures defaultConfig freshRL "search"
    [⟨false, 0, 0, 30⟩, ⟨false, 0, 0, 30⟩, ⟨false, 0, 0, 30⟩,
     ⟨false, 0, 0, 30⟩] ⟨false, 7, 0, 45⟩ rfl rfl (by decide) (by decide)
    (by decide)

theorem calculateBackoff_default_bounds (b u : ℚ) (hb : 0 ≤ b)
    (hu1 : -1 ≤ u) (hu2 : u ≤ 1) :
    1/10 ≤ calculateBackoff defaultConfig b u ∧
    calculateBackoff defaultConfig b u ≤ 390 ∧
    (b ≤ 210 → b ≤ calculateBackoff defaultConfig b u) := by
  have hcfg1 : defaultConfig.initial_backoff_seconds = 5 := rfl
  have hcfg2 : defaultConfig.max_backoff_seconds = 300 := rfl
  have hcfg3 : defaultConfig.backoff_multiplier = 2 := rfl
  have hcfg4 : defaultConfig.jitter_factor = 3/10 := rfl
  unfold calculateBackoff
  rw [hcfg1, hcfg2, hcfg3, hcfg4]
  by_cases hb0 : b = 0
  · rw [if_pos hb0]
    refine ⟨le_max_left _ _, ?_, ?_⟩
    · apply max_le (by norm_num)
      nlinarith
    · intro _
      rw [hb0]
      exact le_trans (by norm_num) (le_max_left _ _)
  · rw [if_neg hb0]
    have hbpos : 0 < b := lt_of_le_of_ne hb (fun h => hb0 h.symm)
    have hmin1 : min (b * 2) 300 ≤ 300 := min_le_right _ _
    have hmin0 : 0 ≤ min (b * 2) 300 := le_min (by linarith) (by norm_num)
    refine ⟨le_max_left _ _, ?_, ?_⟩
    · apply max_le (by norm_num)
      nlinarith
    · intro h210
      have hlow : min (b * 2) 300 * (7/10) ≤
          min (b * 2) 300 + min (b * 2) 300 * (3/10) * u := by
        nlinarith
      have hkey : b ≤ min (b * 2) 300 * (7/10) := by
        rcases min_cases (b * 2) 300 with ⟨heq, hle⟩ | ⟨heq, hlt⟩
        · rw [heq]; nlinarith
        · rw [heq]; nlinarith
      exact le_trans (le_trans hkey hlow) (le_max_right _ _)

theorem recordFailuresSeq_backoff_inv (typ : String) :
    ∀ (calls : List FailCall) (s : RateLimiter), 0 ≤ s.current_backoff →
    (∀ c ∈ calls, c.isRL = true ∧ -1 ≤ c.u ∧ c.u ≤ 1) →
    0 ≤ (recordFailuresSeq defaultConfig typ calls s).current_backoff ∧
    (calls ≠ [] →
      1/10 ≤ (recordFailuresSeq defaultConfig typ calls s).current_backoff ∧
      (recordFailuresSeq defaultConfig typ calls s).current_backoff ≤ 390) := by
  intro calls
  induction calls with
  | nil => exact fun s hs _ => ⟨hs, fun h => absurd rfl h⟩
  | cons c rest ih =>
      intro s hs hall
      obtain ⟨hrl, hu1, hu2⟩ := hall c (List.mem_cons_self _ _)
      have hstep : (s.recordFailure defaultConfig typ c.isRL c.now c.u
          c.draw).current_backoff = calculateBackoff defaultConfig
          s.current_backoff c.u :=
        recordFailure_backoff_calc _ _ _ _ _ _ _ (Or.inl hrl)
      have hb := calculateBackoff_default_bounds s.current_backoff c.u hs hu1 hu2
      rw [recordFailuresSeq_cons]
      have ih' := ih _ (by rw [hstep]; linarith [hb.1])
        (fun c2 hc2 => hall c2 (List.mem_cons_of_mem _ hc2))
      refine ⟨ih'.1, fun _ => ?_⟩
      cases rest with
      | nil =>
          have : recordFailuresSeq defaultConfig typ []
              (s.recordFailure defaultConfig typ c.isRL c.now c.u c.draw) =
              s.recordFailure defaultConfig typ c.isRL c.now c.u c.draw := rfl
          rw [this, hstep]
          exact ⟨hb.1, hb.2.1⟩
      | cons c2 r2 => exact ih'.2 (by simp)

/-- C2 (amended): for every sequence of rate-limited `record_failure`
calls on a freshly reset limiter with jitter draws in `[-1, 1]`,
`current_backoff` after each call lies within
`[0.1, max_backoff * (1 + jitter_factor)]` (390 by default) — not within
`[0.1, max_backoff]` — and a call never decreases `current_backoff` as
long as the preceding value is at most
`max_backoff * (1 - jitter_factor)` (210 by default); above that value a
negative jitter draw can decrease it. `record_action` resets the value
to 0. -/
theorem c2_amended_backoff_envelope :
    (∀ b u : ℚ, 0 ≤ b → -1 ≤ u → u ≤ 1 →
      1/10 ≤ calculateBackoff defaultConfig b u ∧
      calculateBackoff defaultConfig b u ≤
        defaultConfig.max_backoff_seconds * (1 + defaultConfig.jitter_factor) ∧
      (b ≤ defaultConfig.max_backoff_seconds *
          (1 - defaultConfig.jitter_factor) →
        b ≤ calculateBackoff defaultConfig b u)) ∧
    (∀ (typ : String) (calls : List FailCall),
      (∀ c ∈ calls, c.isRL = true ∧ -1 ≤ c.u ∧ c.u ≤ 1) → calls ≠ [] →
      1/10 ≤ (recordFailuresSeq defaultConfig typ calls freshRL).current_backoff ∧
      (recordFailuresSeq defaultConfig typ calls freshRL).current_backoff ≤
        defaultConfig.max_backoff_seconds * (1 + defaultConfig.jitter_factor)) ∧
    (∀ (s : RateLimiter) (typ : String) (now : ℚ),
      (s.recordAction typ now).current_backoff = 0) := by
  have h390 : defaultConfig.max_backoff_seconds *
      (1 + defaultConfig.jitter_factor) = 390 := by norm_num [defaultConfig]
  have h210 : defaultConfig.max_backoff_seconds *
      (1 - defaultConfig.jitter_factor) = 210 := by norm_num [defaultConfig]
  refine ⟨?_, ?_, ?_⟩
  · intro b u hb hu1 hu2
    rw [h390, h210]
    exact calculateBackoff_default_bounds b u hb hu1 hu2
  · intro typ calls hall hne
    rw [h390]
    exact (recordFailuresSeq_backoff_inv typ calls freshRL le_rfl hall).2 hne
  · intro s typ now
    rcases h : lookupC typ s.counters with _ | c <;>
      simp [RateLimiter.recordAction, h]

/-- Witness for C2 (amended): one rate-limited failure from a fresh
limiter with jitter draw 1 lands the backoff inside the envelope. -/
theorem c2_amended_backoff_envelope_witness :
    1/10 ≤ (recordFailuresSeq defaultConfig "search" [⟨true, 0, 1, 30⟩]
        freshRL).current_backoff ∧
    (recordFailuresSeq defaultConfig "search" [⟨true, 0, 1, 30⟩]
        freshRL).current_backoff ≤
      defaultConfig.max_backoff_seconds * (1 + defaultConfig.jitter_factor) :=
  c2_amended_backoff_envelope.2.1 "search" [⟨true, 0, 1, 30⟩]
    (by intro c hc; simp at hc; rw [hc]; exact ⟨rfl, by norm_num, by norm_num⟩)
    (by simp)

/-- Counterexample to C2 as stated: six rate-limited failures with jitter
draw +1 drive `current_backoff` to 390, strictly above
`max_backoff_seconds = 300`; a seventh call with jitter draw -1 then
lowers it to 210, so the sequence is not non-decreasing either. -/
theorem c2_counterexample_backoff_overshoot :
    (recordFailuresSeq defaultConfig "search"
        [⟨true, 0, 1, 30⟩, ⟨true, 0, 1, 30⟩, ⟨true, 0, 1, 30⟩,
         ⟨true, 0, 1, 30⟩, ⟨true, 0, 1, 30⟩, ⟨true, 0, 1, 30⟩]
        freshRL).current_backoff = 390 ∧
    ¬ ((recordFailuresSeq defaultConfig "search"
        [⟨true, 0, 1, 30⟩, ⟨true, 0, 1, 30⟩, ⟨true, 0, 1, 30⟩,
         ⟨true, 0, 1, 30⟩, ⟨true, 0, 1, 30⟩, ⟨true, 0, 1, 30⟩]
        freshRL).current_backoff ≤ defaultConfig.max_backoff_seconds) ∧
    (recordFailuresSeq defaultConfig "search"
        [⟨true, 0, 1, 30⟩, ⟨true, 0, 1, 30⟩, ⟨true, 0, 1, 30⟩,
         ⟨true, 0, 1, 30⟩, ⟨true, 0, 1, 30⟩, ⟨true, 0, 1, 30⟩,
         ⟨true, 0, -1, 30⟩] freshRL).current_backoff = 210 ∧
    (210 : ℚ) < 390 := by
  refine ⟨?_, ?_, ?_, by norm_num⟩ <;>
    norm_num [recordFailuresSeq, List.foldl, RateLimiter.recordFailure,
      calculateBackoff, defaultConfig, freshRL, min_def, max_def]

theorem checkStateCount_fst (cfg : RateLimitConfig) (s : RateLimiter)
    (typ : String) (now : ℚ) :
    (RateLimiter.checkStateCount cfg s typ now).1 =
      if RateLimiter.getLimit cfg typ ≤ windowedCount s typ now then
        RateLimitState.HARD_LIMIT
      else if (RateLimiter.getLimit cfg typ : ℚ) * (8/10) ≤
          (windowedCount s typ now : ℚ) then RateLimitState.SOFT_LIMIT
      else RateLimitState.OK := by
  simp only [RateLimiter.checkStateCount, windowedCount]
  split_ifs <;> rfl

theorem checkStateCount_ne_blocked (cfg : RateLimitConfig) (s : RateLimiter)
    (typ : String) (now : ℚ) :
    (RateLimiter.checkStateCount cfg s typ now).1 ≠ RateLimitState.BLOCKED := by
  rw [checkStateCount_fst]
  split_ifs <;> simp

theorem checkStateCount_iffs (cfg : RateLimitConfig) (s : RateLimiter)
    (typ : String) (now : ℚ) :
    ((RateLimiter.checkStateCount cfg s typ now).1 = RateLimitState.OK ↔
      (windowedCount s typ now : ℚ) <
        (RateLimiter.getLimit cfg typ : ℚ) * (8/10)) ∧
    ((RateLimiter.checkStateCount cfg s typ now).1 = RateLimitState.SOFT_LIMIT ↔
      (RateLimiter.getLimit cfg typ : ℚ) * (8/10) ≤
        (windowedCount s typ now : ℚ) ∧
      windowedCount s typ now < RateLimiter.getLimit cfg typ) ∧
    ((RateLimiter.checkStateCount cfg s typ now).1 = RateLimitState.HARD_LIMIT ↔
      RateLimiter.getLimit cfg typ ≤ windowedCount s typ now) := by
  rw [checkStateCount_fst]
  split_ifs with h1 h2
  · have hle : (RateLimiter.getLimit cfg typ : ℚ) ≤
        (windowedCount s typ now : ℚ) := by exact_mod_cast h1
    have h0 : (0 : ℚ) ≤ (RateLimiter.getLimit cfg typ : ℚ) := Nat.cast_nonneg _
    refine ⟨iff_of_false (by simp) (not_lt.mpr (by linarith)), ?_, ?_⟩
    · exact iff_of_false (by simp) fun h => absurd h1 (not_le.mpr h.2)
    · exact iff_of_true rfl h1
  · refine ⟨iff_of_false (by simp) (not_lt.mpr h2), ?_, ?_⟩
    · exact iff_of_true rfl ⟨h2, by omega⟩
    · exact iff_of_false (by simp) h1
  · refine ⟨iff_of_true rfl (not_le.mp h2), ?_, ?_⟩
    · exact iff_of_false (by simp) fun h => h2 h.1
    · exact iff_of_false (by simp) h1

/-- C9: for every action type and limiter state, `check_state` returns OK
iff the windowed count is below 80 percent of the hourly cap of the type,
SOFT_LIMIT iff the count is at least 80 percent and below 100 percent of
the cap, HARD_LIMIT iff the count is at or above the cap, BLOCKED exactly
when a block-cooldown deadline lies in the future (overriding the count
classification), and unknown action types use the conservative default
cap of 50. -/
theorem c9_check_state_thresholds (cfg : RateLimitConfig) (s : RateLimiter)
    (typ : String) (now : ℚ) :
    (¬ blockActive s now →
      (((RateLimiter.checkState cfg s typ now).1 = RateLimitState.OK ↔
        (windowedCount s typ now : ℚ) <
          (RateLimiter.getLimit cfg typ : ℚ) * (8/10)) ∧
      ((RateLimiter.checkState cfg s typ now).1 = RateLimitState.SOFT_LIMIT ↔
        (RateLimiter.getLimit cfg typ : ℚ) * (8/10) ≤
          (windowedCount s typ now : ℚ) ∧
        windowedCount s typ now < RateLimiter.getLimit cfg typ) ∧
      ((RateLimiter.checkState cfg s typ now).1 = RateLimitState.HARD_LIMIT ↔
        RateLimiter.getLimit cfg typ ≤ windowedCount s typ now))) ∧
    (blockActive s now ↔
      (RateLimiter.checkState cfg s typ now).1 = RateLimitState.BLOCKED) ∧
    (typ ≠ "search" → typ ≠ "profile_view" → typ ≠ "scroll" →
      RateLimiter.getLimit cfg typ = 50) := by
  have hfst : ¬ blockActive s now →
      (RateLimiter.checkState cfg s typ now).1 =
        (RateLimiter.checkStateCount cfg s typ now).1 := by
    intro hna
    rcases hbl : s.blocked_until with _ | d
    · simp [RateLimiter.checkState, hbl]
    · by_cases hlt : now < d
      · exact absurd ⟨d, hbl, hlt⟩ hna
      · simp [RateLimiter.checkState, hbl, hlt]
  refine ⟨fun hna => ?_, ⟨?_, ?_⟩,
    fun h1 h2 h3 => by simp [RateLimiter.getLimit, h1, h2, h3]⟩
  · rw [hfst hna]
    exact checkStateCount_iffs cfg s typ now
  · rintro ⟨d, hd, hlt⟩
    exact checkState_blocked cfg s typ now d hd hlt
  · intro hB
    by_contra hna
    rw [hfst hna] at hB
    exact checkStateCount_ne_blocked cfg s typ now hB

/-- Witness for C9: a limiter whose "search" counter reads 16 against the
default cap of 20 (so at the 80 percent threshold) is classified
SOFT_LIMIT. -/
theorem c9_check_state_thresholds_witness :
    (RateLimiter.checkState defaultConfig softLimiter "search" 10).1 =
      RateLimitState.SOFT_LIMIT := by
  have h := c9_check_state_thresholds defaultConfig softLimiter "search" 10
  have hna : ¬ blockActive softLimiter 10 := by
    rintro ⟨d, hd, _⟩
    simp [softLimiter] at hd
  refine ((h.1 hna).2.1).mpr ⟨?_, ?_⟩
  · norm_num [windowedCount, RateLimiter.getOrCreate, lookupC, softLimiter,
      ActionCounter.getCount, ActionCounter.maybeReset, RateLimiter.getLimit,
      defaultConfig]
  · norm_num [windowedCount, RateLimiter.getOrCreate, lookupC, softLimiter,
      ActionCounter.getCount, ActionCounter.maybeReset, RateLimiter.getLimit,
      defaultConfig]

theorem lookupC_replaceC_self (typ : String) (c : ActionCounter) :
    ∀ (l : List (String × ActionCounter)) (c0 : ActionCounter),
    lookupC typ l = some c0 → lookupC typ (replaceC typ c l) = some c := by
  intro l
  induction l with
  | nil => intro c0 h; simp [lookupC] at h
  | cons kv rest ih =>
      intro c0 h
      obtain ⟨k, cc⟩ := kv
      by_cases hk : k = typ
      · simp [lookupC, replaceC, hk]
      · simp only [lookupC, replaceC, if_neg hk] at h ⊢
        exact ih c0 h

theorem lookupC_replaceC_ne (typ : String) (c : ActionCounter) (t2 : String)
    (h : t2 ≠ typ) :
    ∀ l : List (String × ActionCounter),
    lookupC t2 (replaceC typ c l) = lookupC t2 l := by
  intro l
  induction l with
  | nil => rfl
  | cons kv rest ih =>
      obtain ⟨k, cc⟩ := kv
      by_cases hk : k = typ
      · subst hk
        simp only [replaceC, if_pos rfl, lookupC]
        rw [if_neg fun hh => h hh.symm, if_neg fun hh => h hh.symm]
      · simp only [replaceC, if_neg hk, lookupC]
        split_ifs <;> simp [ih]

theorem lookupC_append_self (typ : String) (c : ActionCounter) :
    ∀ l : List (String × ActionCounter), lookupC typ l = none →
    lookupC typ (l ++ [(typ, c)]) = some c := by
  intro l
  induction l with
  | nil => intro _; simp [lookupC]
  | cons kv rest ih =>
      intro h
      obtain ⟨k, cc⟩ := kv
      by_cases hk : k = typ
      · simp [lookupC, hk] at h
      · simp only [lookupC, if_neg hk, List.cons_append] at h ⊢
        exact ih h

theorem lookupC_append_ne (typ : String) (c : ActionCounter) (t2 : String)
    (h : t2 ≠ typ) :
    ∀ l : List (String × ActionCounter),
    lookupC t2 (l ++ [(typ, c)]) = lookupC t2 l := by
  intro l
  induction l with
  | nil =>
      simp only [List.nil_append, lookupC]
      rw [if_neg fun hh => h hh.symm]
  | cons kv rest ih =>
      obtain ⟨k, cc⟩ := kv
      simp only [List.cons_append, lookupC]
      split_ifs <;> simp [ih]

theorem waitIfNeeded_blocked (cfg : RateLimitConfig) (s : RateLimiter)
    (typ : String) (now u : ℚ)
    (h : (RateLimiter.checkState cfg s typ now).1 = RateLimitState.BLOCKED) :
    (RateLimiter.waitIfNeeded cfg s typ now u).blocked_until = none := by
  simp only [RateLimiter.waitIfNeeded]
  rw [h]

/-- C10: `record_action` increments only the counter of its own action
type (with the window semantics of `increment`) and resets
`consecutive_failures` and `current_backoff` to 0, while `blocked_until`
and every other counter are unchanged; a success recorded during an
active block cooldown leaves `check_state` BLOCKED until the deadline
passes; the block flag is cleared (made `none`) only by a completed
`wait_if_needed` under BLOCKED state or by `reset`, never by
`record_failure`, which can only overwrite it with a new deadline. -/
theorem c10_record_action_frame (cfg : RateLimitConfig) (s : RateLimiter)
    (typ : String) (now u : ℚ) :
    lookupC typ (s.recordAction typ now).counters =
      some (((s.getOrCreate typ now).1).increment now) ∧
    (∀ t2, t2 ≠ typ →
      lookupC t2 (s.recordAction typ now).counters = lookupC t2 s.counters) ∧
    (s.recordAction typ now).consecutive_failures = 0 ∧
    (s.recordAction typ now).current_backoff = 0 ∧
    (s.recordAction typ now).blocked_until = s.blocked_until ∧
    (∀ d, s.blocked_until = some d → ∀ typ2 now2, now2 < d →
      (RateLimiter.checkState cfg (s.recordAction typ now) typ2 now2).1 =
        RateLimitState.BLOCKED) ∧
    (blockActive s now →
      (RateLimiter.waitIfNeeded cfg s typ now u).blocked_until = none) ∧
    s.reset.blocked_until = none ∧
    (∀ (b : Bool) (u2 : ℚ) (d2 : Nat) (d : ℚ), s.blocked_until = some d →
      ∃ e, (s.recordFailure cfg typ b now u2 d2).blocked_until = some e) := by
  have hblocked : (s.recordAction typ now).blocked_until = s.blocked_until := by
    rcases h : lookupC typ s.counters with _ | c <;>
      simp [RateLimiter.recordAction, h]
  refine ⟨?_, ?_, ?_, ?_, hblocked, ?_, ?_, rfl, ?_⟩
  · rcases h : lookupC typ s.counters with _ | c
    · simp only [RateLimiter.recordAction, h, RateLimiter.getOrCreate]
      exact lookupC_append_self typ _ s.counters h
    · simp only [RateLimiter.recordAction, h, RateLimiter.getOrCreate]
      exact lookupC_replaceC_self typ _ s.counters c h
  · intro t2 ht2
    rcases h : lookupC typ s.counters with _ | c
    · simp only [RateLimiter.recordAction, h]
      exact lookupC_append_ne typ _ t2 ht2 s.counters
    · simp only [RateLimiter.recordAction, h]
      exact lookupC_replaceC_ne typ _ t2 ht2 s.counters
  · rcases h : lookupC typ s.counters with _ | c <;>
      simp [RateLimiter.recordAction, h]
  · rcases h : lookupC typ s.counters with _ | c <;>
      simp [RateLimiter.recordAction, h]
  · intro d hd typ2 now2 hlt
    exact checkState_blocked cfg _ typ2 now2 d (hblocked.trans hd) hlt
  · rintro ⟨d, hd, hlt⟩
    exact waitIfNeeded_blocked cfg s typ now u
      (checkState_blocked cfg s typ now d hd hlt)
  · intro b u2 d2 d hd
    by_cases hc : cfg.max_consecutive_failures ≤ s.consecutive_failures + 1
    · exact ⟨now + (d2 : ℚ) * 60, recordFailure_blocked_set cfg s typ b now u2 d2 hc⟩
    · refine ⟨d, ?_⟩
      rw [recordFailure_blocked_keep cfg s typ b now u2 d2 (by omega), hd]

/-- Witness for C10: a successful "search" during a block with deadline
t = 1000 does not lift the block; a completed `wait_if_needed` does. -/
theorem c10_record_action_frame_witness :
    (RateLimiter.checkState defaultConfig
        (blockedLimiter.recordAction "search" 0) "scroll" 500).1 =
      RateLimitState.BLOCKED ∧
    (RateLimiter.waitIfNeeded defaultConfig blockedLimiter "search" 0
        0).blocked_until = none :=
  ⟨(c10_record_action_frame defaultConfig blockedLimiter "search" 0
      0).2.2.2.2.2.1 1000 rfl "scroll" 500 (by norm_num),
   (c10_record_action_frame defaultConfig blockedLimiter "search" 0
      0).2.2.2.2.2.2.1 ⟨1000, rfl, by norm_num⟩⟩

theorem challengeProbeLoop_eq_any (p : PageScript) :
    ∀ l : List String, challengeProbeLoop p l = l.any (probeHit p) := by
  intro l
  induction l with
  | nil => rfl
  | cons sel rest ih =>
      simp only [challengeProbeLoop, List.any_cons]
      rcases h : p.querySelector sel with e | b
      · simp [probeHit, h, ih]
      · cases b <;> simp [probeHit, h, ih]

/-- C3 (amended): a DOM probe that throws during the challenge-wall check
is treated as a non-match and `check_for_challenge` always completes with
a verdict; in the login-wall check only the cookie probe is protected — if
the login-form and logged-in-indicator query-selector probes complete,
`_is_login_required` completes, but a thrown probe there propagates (see
the counterexample). -/
theorem c3_amended_classifier_probes (p : PageScript) :
    (checkForChallenge p =
      ((["challenge", "checkpoint"].any fun ind =>
          strContains (strLower p.url) ind) ||
        challengeSelectors.any (probeHit p))) ∧
    (probeOk (p.querySelector selLoginForm) = true →
      probeOk (p.querySelector selLoggedIn) = true →
      probeOk (isLoginRequired p) = true) := by
  constructor
  · simp only [checkForChallenge]
    split_ifs with h
    · simp [h]
    · simp only [Bool.not_eq_true] at h
      rw [challengeProbeLoop_eq_any, h, Bool.false_or]
  · intro h1 h2
    by_cases hurl : (strContains (strLower p.url) "login" ||
        strContains (strLower p.url) "accounts/login") = true
    · simp [isLoginRequired, hurl, probeOk]
    · rcases hf : p.querySelector selLoginForm with e | b
      · simp [probeOk, hf] at h1
      · cases b
        · rcases hg : p.querySelector selLoggedIn with e2 | b2
          · simp [probeOk, hg] at h2
          · cases b2 <;>
              simp [isLoginRequired, hurl, hf, hg, probeOk]
        · simp [isLoginRequired, hurl, hf, probeOk]

/-- Counterexample to C3 as stated: on a page whose query-selector probes
all throw, the challenge check still completes with a verdict, but
`_is_login_required` propagates the probe exception instead of treating
it as a non-match, so classification does not complete. -/
theorem c3_counterexample_login_probe_throws :
    isLoginRequired probeThrowPage =
      Except.error "Execution context was destroyed" ∧
    probeOk (isLoginRequired probeThrowPage) = false ∧
    checkForChallenge probeThrowPage = false := by decide

/-- Witness for C3 (amended): the challenge verdict of the all-throwing
page equals its probe-as-non-match characterization, and on a page whose
probes complete the login check completes. -/
theorem c3_amended_classifier_probes_witness :
    (checkForChallenge probeThrowPage =
      ((["challenge", "checkpoint"].any fun ind =>
          strContains (strLower probeThrowPage.url) ind) ||
        challengeSelectors.any (probeHit probeThrowPage))) ∧
    probeOk (isLoginRequired stallPage) = true :=
  ⟨(c3_amended_classifier_probes probeThrowPage).1,
   (c3_amended_classifier_probes stallPage).2 (by decide) (by decide)⟩

theorem getOrCreate_snd_fields (s : RateLimiter) (typ : String) (now : ℚ) :
    (s.getOrCreate typ now).2.current_backoff = s.current_backoff ∧
    (s.getOrCreate typ now).2.consecutive_failures = s.consecutive_failures ∧
    (s.getOrCreate typ now).2.blocked_until = s.blocked_until := by
  rcases h : lookupC typ s.counters with _ | c <;>
    simp [RateLimiter.getOrCreate, h]

theorem checkStateCount_snd (cfg : RateLimitConfig) (s : RateLimiter)
    (typ : String) (now : ℚ) :
    (RateLimiter.checkStateCount cfg s typ now).2 = (s.getOrCreate typ now).2 := by
  simp only [RateLimiter.checkStateCount]
  split_ifs <;> rfl

theorem checkState_snd_fields (cfg : RateLimitConfig) (s : RateLimiter)
    (typ : String) (now : ℚ) :
    (RateLimiter.checkState cfg s typ now).2.current_backoff =
      s.current_backoff ∧
    (RateLimiter.checkState cfg s typ now).2.consecutive_failures =
      s.consecutive_failures ∧
    (RateLimiter.checkState cfg s typ now).2.blocked_until =
      s.blocked_until := by
  have hcount := (checkStateCount_snd cfg s typ now).symm
  have hgoc := getOrCreate_snd_fields s typ now
  rcases hbl : s.blocked_until with _ | d
  · rw [hbl] at hgoc
    simp only [RateLimiter.checkState, hbl]
    rw [checkStateCount_snd]
    exact hgoc
  · by_cases hlt : now < d
    · simp [RateLimiter.checkState, hbl, hlt]
    · rw [hbl] at hgoc
      simp only [RateLimiter.checkState, hbl, if_neg hlt]
      rw [checkStateCount_snd]
      exact hgoc

theorem waitIfNeeded_soft_frame (cfg : RateLimitConfig) (s : RateLimiter)
    (typ : String) (now u : ℚ)
    (h : (RateLimiter.checkState cfg s typ now).1 = RateLimitState.OK ∨
         (RateLimiter.checkState cfg s typ now).1 = RateLimitState.SOFT_LIMIT) :
    (RateLimiter.waitIfNeeded cfg s typ now u).current_backoff =
      s.current_backoff ∧
    (RateLimiter.waitIfNeeded cfg s typ now u).consecutive_failures =
      s.consecutive_failures ∧
    (RateLimiter.waitIfNeeded cfg s typ now u).blocked_until =
      s.blocked_until := by
  have hfields := checkState_snd_fields cfg s typ now
  simp only [RateLimiter.waitIfNeeded]
  rcases h with h | h <;> rw [h] <;> exact hfields

/-- C1 (amended): when `search` classifies the loaded page as a login
wall and the governor was not limiting beforehand, `AuthenticationRequired`
is raised, but the governor records the non-rate-limited "search" failure
twice — once at detection and once in the generic exception handler that
the raised wall error also reaches. Across the whole call
`consecutive_failures` increases by exactly 2, and `current_backoff` is
unchanged unless the resulting count reaches the recompute threshold of 3
(`blocked_until` unchanged unless the count reaches
`max_consecutive_failures`). -/
theorem c1_amended_login_wall_double_record (cfg : RateLimitConfig)
    (rl0 : RateLimiter) (p : PageScript) (ct : String) (limit : Nat)
    (now u0 u1 u2 : ℚ) (d1 d2 : Nat)
    (hlogin : isLoginRequired p = Except.ok true)
    (hok : (RateLimiter.checkState cfg rl0 "search" now).1 =
        RateLimitState.OK ∨
      (RateLimiter.checkState cfg rl0 "search" now).1 =
        RateLimitState.SOFT_LIMIT) :
    (searchRun cfg rl0 p ct limit now u0 u1 u2 d1 d2).outcome =
      SearchOutcome.authRequired ∧
    (searchRun cfg rl0 p ct limit now u0 u1 u2 d1 d2).rl.consecutive_failures =
      rl0.consecutive_failures + 2 ∧
    (rl0.consecutive_failures + 2 < 3 →
      (searchRun cfg rl0 p ct limit now u0 u1 u2 d1 d2).rl.current_backoff =
        rl0.current_backoff) ∧
    (rl0.consecutive_failures + 2 < cfg.max_consecutive_failures →
      (searchRun cfg rl0 p ct limit now u0 u1 u2 d1 d2).rl.blocked_until =
        rl0.blocked_until) := by
  have hw := waitIfNeeded_soft_frame cfg rl0 "search" now u0 hok
  have hirl : (strContains (strLower "Instagram login required") "rate" ||
      strContains "Instagram login required" "429") = false := by decide
  have hrun : searchRun cfg rl0 p ct limit now u0 u1 u2 d1 d2 =
      { rl := ((RateLimiter.waitIfNeeded cfg rl0 "search" now
            u0).recordFailure cfg "search" false now u1 d1).recordFailure cfg
            "search" false now u2 d2,
        outcome := SearchOutcome.authRequired, scrollIters := 0,
        seenFinal := [] } := by
    simp only [searchRun, hlogin, hirl]
  refine ⟨by rw [hrun], ?_, ?_, ?_⟩
  · rw [hrun, recordFailure_failures, recordFailure_failures, hw.2.1]
  · intro h3
    rw [hrun]
    rw [recordFailure_backoff_keep _ _ _ _ _ _
      (by rw [recordFailure_failures, hw.2.1]; omega)]
    rw [recordFailure_backoff_keep _ _ _ _ _ _ (by rw [hw.2.1]; omega)]
    exact hw.1
  · intro h5
    rw [hrun]
    rw [recordFailure_blocked_keep _ _ _ _ _ _ _
      (by rw [recordFailure_failures, hw.2.1]; omega)]
    rw [recordFailure_blocked_keep _ _ _ _ _ _ _ (by rw [hw.2.1]; omega)]
    exact hw.2.2

/-- Counterexample to C1 as stated: a login-wall search from a fresh
limiter raises `AuthenticationRequired` but leaves
`consecutive_failures = 2`, not 1 — the failure is recorded at detection
and a second time by the generic exception handler of `search`. -/
theorem c1_counterexample_single_failure :
    (searchRun defaultConfig freshRL loginWallPage "all" 20 0 0 0 0
        30 30).outcome = SearchOutcome.authRequired ∧
    freshRL.consecutive_failures = 0 ∧
    (searchRun defaultConfig freshRL loginWallPage "all" 20 0 0 0 0
        30 30).rl.consecutive_failures = 2 ∧
    ¬ ((searchRun defaultConfig freshRL loginWallPage "all" 20 0 0 0 0
        30 30).rl.consecutive_failures = freshRL.consecutive_failures + 1) := by
  have hlogin : isLoginRequired loginWallPage = Except.ok true := by decide
  have hirl : (strContains (strLower "Instagram login required") "rate" ||
      strContains "Instagram login required" "429") = false := by decide
  have hrun : searchRun defaultConfig freshRL loginWallPage "all" 20 0 0 0 0
      30 30 =
      { rl := ((RateLimiter.waitIfNeeded defaultConfig freshRL "search" 0
            0).recordFailure defaultConfig "search" false 0 0
            30).recordFailure defaultConfig "search" false 0 0 30,
        outcome := SearchOutcome.authRequired, scrollIters := 0,
        seenFinal := [] } := by
    simp only [searchRun, hlogin, hirl]
  have hok : (RateLimiter.checkState defaultConfig freshRL "search" 0).1 =
      RateLimitState.OK := by
    norm_num [RateLimiter.checkState, RateLimiter.checkStateCount,
      RateLimiter.getOrCreate, lookupC, freshRL, ActionCounter.getCount,
      ActionCounter.maybeReset, ActionCounter.new, RateLimiter.getLimit,
      defaultConfig]
  have hw := waitIfNeeded_soft_frame defaultConfig freshRL "search" 0 0
    (Or.inl hok)
  refine ⟨by rw [hrun], rfl, ?_, ?_⟩
  · rw [hrun, recordFailure_failures, recordFailure_failures, hw.2.1]
    simp [freshRL]
  · rw [hrun, recordFailure_failures, recordFailure_failures, hw.2.1]
    simp [freshRL]

/-- Witness for C1 (amended) at a concrete login-wall run from a fresh
limiter. -/
theorem c1_amended_login_wall_double_record_witness :
    (searchRun defaultConfig freshRL loginWallPage "all" 10 0 0 0 0
        30 30).outcome = SearchOutcome.authRequired ∧
    (searchRun defaultConfig freshRL loginWallPage "all" 10 0 0 0 0
        30 30).rl.consecutive_failures = freshRL.consecutive_failures + 2 ∧
    (freshRL.consecutive_failures + 2 < 3 →
      (searchRun defaultConfig freshRL loginWallPage "all" 10 0 0 0 0
          30 30).rl.current_backoff = freshRL.current_backoff) ∧
    (freshRL.consecutive_failures + 2 <
        defaultConfig.max_consecutive_failures →
      (searchRun defaultConfig freshRL loginWallPage "all" 10 0 0 0 0
          30 30).rl.blocked_until = freshRL.blocked_until) :=
  c1_amended_login_wall_double_record defaultConfig freshRL loginWallPage
    "all" 10 0 0 0 0 30 30 (by decide)
    (Or.inl (by
      norm_num [RateLimiter.checkState, RateLimiter.checkStateCount,
        RateLimiter.getOrCreate, lookupC, freshRL, ActionCounter.getCount,
        ActionCounter.maybeReset, ActionCounter.new, RateLimiter.getLimit,
        defaultConfig]))

theorem lookupKey_setThumb_self (k : String) (t : Option String) :
    ∀ l : List (String × Item),
    lookupKey k (setThumb k t l) =
      (lookupKey k l).map fun it => { it with thumbnail_url := t } := by
  intro l
  induction l with
  | nil => rfl
  | cons kv rest ih =>
      obtain ⟨k0, it0⟩ := kv
      by_cases hk : k0 = k
      · simp [setThumb, lookupKey, hk]
      · simp only [setThumb, lookupKey, if_neg hk]
        exact ih

theorem lookupKey_setThumb_ne (k : String) (t : Option String) (k2 : String)
    (h : k2 ≠ k) :
    ∀ l : List (String × Item),
    lookupKey k2 (setThumb k t l) = lookupKey k2 l := by
  intro l
  induction l with
  | nil => rfl
  | cons kv rest ih =>
      obtain ⟨k0, it0⟩ := kv
      by_cases hk : k0 = k
      · subst hk
        simp only [setThumb, if_pos rfl, lookupKey]
        rw [if_neg fun hh => h hh.symm, if_neg fun hh => h hh.symm]
      · simp only [setThumb, if_neg hk, lookupKey]
        split_ifs <;> simp [ih]

theorem keysOf_setThumb (k : String) (t : Option String) :
    ∀ l : List (String × Item), keysOf (setThumb k t l) = keysOf l := by
  intro l
  induction l with
  | nil => rfl
  | cons kv rest ih =>
      obtain ⟨k0, it0⟩ := kv
      by_cases hk : k0 = k
      · simp [setThumb, hk, keysOf]
      · simp only [setThumb, if_neg hk, keysOf, List.map_cons]
        simp only [keysOf] at ih
        rw [ih]

theorem lookupKey_eq_none_iff (k : String) :
    ∀ l : List (String × Item), lookupKey k l = none ↔ k ∉ keysOf l := by
  intro l
  induction l with
  | nil => simp [lookupKey, keysOf]
  | cons kv rest ih =>
      obtain ⟨k0, it0⟩ := kv
      by_cases hk : k0 = k
      · simp [lookupKey, hk, keysOf]
      · have hstep : lookupKey k ((k0, it0) :: rest) = lookupKey k rest := by
          simp [lookupKey, hk]
        rw [hstep, ih]
        simp only [keysOf, List.map_cons, List.mem_cons]
        constructor
        · intro h hor
          rcases hor with h1 | h2
          · exact hk h1.symm
          · exact h h2
        · intro h h2
          exact h (Or.inr h2)

theorem mergeOne_nodup (seen : List (String × Item)) (item : Item)
    (h : (keysOf seen).Nodup) : (keysOf (mergeOne seen item)).Nodup := by
  rcases hsc : item.shortcode with _ | key
  · simpa [mergeOne, hsc] using h
  · by_cases hke : key = ""
    · simpa [mergeOne, hsc, hke] using h
    · rcases hlk : lookupKey key seen with _ | ex
      · have hnotin : key ∉ keysOf seen := (lookupKey_eq_none_iff key seen).mp hlk
        simp only [mergeOne, hsc, if_neg hke, hlk]
        rw [show keysOf (seen ++ [(key, item)]) = keysOf seen ++ [key] by
          simp [keysOf]]
        rw [List.nodup_append]
        exact ⟨h, List.nodup_singleton _,
          fun a ha hb => by simp at hb; exact hnotin (hb ▸ ha)⟩
      · simp only [mergeOne, hsc, if_neg hke, hlk]
        split_ifs with hcond
        · rw [keysOf_setThumb]; exact h
        · exact h

theorem mergeItems_nodup :
    ∀ (items : List Item) (seen : List (String × Item)),
    (keysOf seen).Nodup → (keysOf (mergeItems items seen)).Nodup := by
  intro items
  induction items with
  | nil => exact fun seen h => h
  | cons it rest ih =>
      intro seen h
      exact ih (mergeOne seen it) (mergeOne_nodup seen it h)

/-- C5: across any sequence of merged batches the dedup map holds at most
one entry per shortcode key (keys stay pairwise distinct, in particular
for every accumulated `mergedSeen` state); merging an incoming item whose
shortcode already has an entry keeps the existing entry, filling
`thumbnail_url` only when the existing value is missing (falsy) and the
incoming one is present; merging an item with a missing thumbnail into an
entry that has one leaves the map unchanged; an unseen non-falsy key is
appended. -/
theorem c5_merge_dedup_spec :
    (∀ (items : List Item) (seen : List (String × Item)),
      (keysOf seen).Nodup → (keysOf (mergeItems items seen)).Nodup) ∧
    (∀ (collects : Nat → List Item) (n : Nat),
      (keysOf (mergedSeen collects n)).Nodup) ∧
    (∀ (seen : List (String × Item)) (item : Item) (key : String),
      item.shortcode = some key → key ≠ "" →
      (lookupKey key seen = none →
        mergeOne seen item = seen ++ [(key, item)]) ∧
      (∀ ex, lookupKey key seen = some ex →
        ((optFalsy ex.thumbnail_url = false ∨
            optFalsy item.thumbnail_url = true) →
          mergeOne seen item = seen) ∧
        (optFalsy ex.thumbnail_url = true →
          optFalsy item.thumbnail_url = false →
          lookupKey key (mergeOne seen item) =
            some { ex with thumbnail_url := item.thumbnail_url } ∧
          ∀ k2, k2 ≠ key →
            lookupKey k2 (mergeOne seen item) = lookupKey k2 seen))) := by
  refine ⟨mergeItems_nodup, ?_, ?_⟩
  · intro collects n
    induction n with
    | zero => exact mergeItems_nodup (collects 0) [] (by simp [keysOf])
    | succ n ih => exact mergeItems_nodup (collects (n + 1)) _ ih
  · intro seen item key hsc hke
    constructor
    · intro hlk
      simp [mergeOne, hsc, hke, hlk]
    · intro ex hlk
      constructor
      · intro hcase
        have hc : (optFalsy ex.thumbnail_url &&
            ! optFalsy item.thumbnail_url) = false := by
          rcases hcase with h | h <;> simp [h]
        simp [mergeOne, hsc, hke, hlk, hc]
      · intro ha hb
        have hc : (optFalsy ex.thumbnail_url &&
            ! optFalsy item.thumbnail_url) = true := by simp [ha, hb]
        constructor
        · simp only [mergeOne, hsc, if_neg hke, hlk, hc, if_pos]
          rw [lookupKey_setThumb_self, hlk]
          rfl
        · intro k2 hk2
          simp only [mergeOne, hsc, if_neg hke, hlk, hc, if_pos]
          exact lookupKey_setThumb_ne key item.thumbnail_url k2 hk2 seen

/-- Witness for C5: merging an item with a thumbnail into an entry whose
thumbnail is missing backfills it, and the keys of each accumulated map of
`stallPage` stay pairwise distinct. -/
theorem c5_merge_dedup_spec_witness :
    (lookupKey "AAA" (mergeOne [("AAA",
        { shortcode := some "AAA", content_type := "reel",
          url := "https://www.instagram.com/reel/AAA/",
          thumbnail_url := none })]
        { shortcode := some "AAA", content_type := "reel",
          url := "https://www.instagram.com/reel/AAA/",
          thumbnail_url := some "https://cdn.example/t.jpg" }) =
      some { shortcode := some "AAA", content_type := "reel",
             url := "https://www.instagram.com/reel/AAA/",
             thumbnail_url := some "https://cdn.example/t.jpg" }) ∧
    (keysOf (mergedSeen stallPage.collects 3)).Nodup := by
  constructor
  · have h := (c5_merge_dedup_spec.2.2
      [("AAA", { shortcode := some "AAA", content_type := "reel",
                 url := "https://www.instagram.com/reel/AAA/",
                 thumbnail_url := none })]
      { shortcode := some "AAA", content_type := "reel",
        url := "https://www.instagram.com/reel/AAA/",
        thumbnail_url := some "https://cdn.example/t.jpg" }
      "AAA" rfl (by decide)).2
      { shortcode := some "AAA", content_type := "reel",
        url := "https://www.instagram.com/reel/AAA/",
        thumbnail_url := none } (by decide)
    exact (h.2 (by decide) (by decide)).1
  · exact c5_merge_dedup_spec.2.1 stallPage.collects 3

theorem stlmGo_spec (probe : Nat → Nat) (target : Nat) :
    ∀ (fuel idx cur nc : Nat), cur = (stlmState probe idx).1 →
    nc = (stlmState probe idx).2 →
    (stlmGo probe target fuel cur nc idx).1 ≤ fuel ∧
    (∀ j, j + 1 < (stlmGo probe target fuel cur nc idx).1 →
      ¬ stlmStop probe target (idx + j)) ∧
    ((stlmGo probe target fuel cur nc idx).1 < fuel →
      1 ≤ (stlmGo probe target fuel cur nc idx).1 ∧
      stlmStop probe target
        (idx + (stlmGo probe target fuel cur nc idx).1 - 1)) ∧
    (stlmGo probe target fuel cur nc idx).2 =
      (if (stlmGo probe target fuel cur nc idx).1 = 0 then cur
       else probe (idx + (stlmGo probe target fuel cur nc idx).1 - 1)) := by
  intro fuel
  induction fuel with
  | zero =>
      intro idx cur nc h1 h2
      simp [stlmGo]
  | succ fuel ih =>
      intro idx cur nc h1 h2
      by_cases ht : target ≤ probe idx
      · simp only [stlmGo, if_pos ht]
        refine ⟨by omega, fun j hj => by omega, fun _ => ⟨le_refl 1, ?_⟩, ?_⟩
        · have hidx : idx + 1 - 1 = idx := by omega
          rw [hidx]
          exact Or.inl ht
        · simp
      · by_cases heq : probe idx = cur
        · have hs1 : stlmState probe (idx + 1) = (cur, nc + 1) := by
            have hpair : stlmState probe idx = (cur, nc) := by
              rw [h1, h2]
            simp [stlmState, hpair, heq]
          by_cases hnc : 3 ≤ nc + 1
          · simp only [stlmGo, if_neg ht, if_pos heq, if_pos hnc]
            refine ⟨by omega, fun j hj => by omega, fun _ => ⟨le_refl 1, ?_⟩, ?_⟩
            · have hidx : idx + 1 - 1 = idx := by omega
              rw [hidx]
              exact Or.inr (by rw [hs1]; exact hnc)
            · simp
          · have ihr := ih (idx + 1) cur (nc + 1) (by rw [hs1]) (by rw [hs1])
            simp only [stlmGo, if_neg ht, if_pos heq, if_neg hnc]
            obtain ⟨ih1, ih2, ih3, ih4⟩ := ihr
            refine ⟨by omega, ?_, ?_, ?_⟩
            · intro j hj
              cases j with
              | zero =>
                  intro hstop
                  rcases hstop with h | h
                  · exact ht (by simpa using h)
                  · rw [hs1] at h
                    exact hnc (by simpa using h)
              | succ j2 =>
                  have hj2 : j2 + 1 <
                      (stlmGo probe target fuel cur (nc + 1) (idx + 1)).1 := by
                    simpa using Nat.lt_of_succ_lt_succ hj
                  have := ih2 j2 hj2
                  have hidx : idx + 1 + j2 = idx + (j2 + 1) := by omega
                  rw [hidx] at this
                  simpa using this
            · intro hlt
              have hlt2 : (stlmGo probe target fuel cur (nc + 1) (idx + 1)).1 <
                  fuel := by simpa using Nat.lt_of_succ_lt_succ hlt
              obtain ⟨hge, hstop⟩ := ih3 hlt2
              refine ⟨by omega, ?_⟩
              have hidx : idx + 1 +
                  (stlmGo probe target fuel cur (nc + 1) (idx + 1)).1 - 1 =
                  idx + ((stlmGo probe target fuel cur (nc + 1) (idx + 1)).1
                    + 1) - 1 := by omega
              rw [hidx] at hstop
              simpa using hstop
            · rw [if_neg (by omega :
                ¬((stlmGo probe target fuel cur (nc + 1) (idx + 1)).1 + 1 = 0))]
              rw [ih4]
              rcases hz : (stlmGo probe target fuel cur (nc + 1) (idx + 1)).1
                with _ | n
              · rw [if_pos rfl]
                have harith : idx + (0 + 1) - 1 = idx := by omega
                rw [harith]
                exact heq.symm
              · rw [if_neg (Nat.succ_ne_zero n)]
                congr 1
                omega
        · have hs1 : stlmState probe (idx + 1) = (probe idx, 0) := by
            have hpair : stlmState probe idx = (cur, nc) := by
              rw [h1, h2]
            simp [stlmState, hpair, heq]
          have ihr := ih (idx + 1) (probe idx) 0 (by rw [hs1]) (by rw [hs1])
          simp only [stlmGo, if_neg ht, if_neg heq]
          obtain ⟨ih1, ih2, ih3, ih4⟩ := ihr
          refine ⟨by omega, ?_, ?_, ?_⟩
          · intro j hj
            cases j with
            | zero =>
                intro hstop
                rcases hstop with h | h
                · exact ht (by simpa using h)
                · rw [hs1] at h
                  simp at h
            | succ j2 =>
                have hj2 : j2 + 1 <
                    (stlmGo probe target fuel (probe idx) 0 (idx + 1)).1 := by
                  simpa using Nat.lt_of_succ_lt_succ hj
                have := ih2 j2 hj2
                have hidx : idx + 1 + j2 = idx + (j2 + 1) := by omega
                rw [hidx] at this
                simpa using this
          · intro hlt
            have hlt2 : (stlmGo probe target fuel (probe idx) 0 (idx + 1)).1 <
                fuel := by simpa using Nat.lt_of_succ_lt_succ hlt
            obtain ⟨hge, hstop⟩ := ih3 hlt2
            refine ⟨by omega, ?_⟩
            have hidx : idx + 1 +
                (stlmGo probe target fuel (probe idx) 0 (idx + 1)).1 - 1 =
                idx + ((stlmGo probe target fuel (probe idx) 0 (idx + 1)).1
                  + 1) - 1 := by omega
            rw [hidx] at hstop
            simpa using hstop
          · rw [if_neg (by omega :
              ¬((stlmGo probe target fuel (probe idx) 0 (idx + 1)).1 + 1 = 0))]
            rw [ih4]
            rcases hz : (stlmGo probe target fuel (probe idx) 0 (idx + 1)).1
              with _ | n
            · rw [if_pos rfl]
              have harith : idx + (0 + 1) - 1 = idx := by omega
              rw [harith]
            · rw [if_neg (Nat.succ_ne_zero n)]
              congr 1
              omega

/-- C8 (amended): for every probe sequence, `scroll_to_load_more` performs
at most `max_scrolls` iterations and returns the last observed count (0
when no iteration ran); it returns as soon as a measured count reaches
`target_count` or the count has been unchanged for 3 consecutive
iterations — the loop never runs past such a stop point, and whenever it
ends before exhausting `max_scrolls` a stop condition held at its last
iteration. The source stalls on an unchanged count, not on every
non-growing count: a strictly decreasing probe never triggers the stall
exit (see the counterexample). -/
theorem c8_amended_scroll_stall_budget (probe : Nat → Nat)
    (target maxScrolls : Nat) :
    (scrollToLoadMore probe target maxScrolls).1 ≤ maxScrolls ∧
    (∀ j, j + 1 < (scrollToLoadMore probe target maxScrolls).1 →
      ¬ stlmStop probe target j) ∧
    ((scrollToLoadMore probe target maxScrolls).1 < maxScrolls →
      1 ≤ (scrollToLoadMore probe target maxScrolls).1 ∧
      stlmStop probe target
        ((scrollToLoadMore probe target maxScrolls).1 - 1)) ∧
    (scrollToLoadMore probe target maxScrolls).2 =
      (if (scrollToLoadMore probe target maxScrolls).1 = 0 then 0
       else probe ((scrollToLoadMore probe target maxScrolls).1 - 1)) := by
  have h := stlmGo_spec probe target maxScrolls 0 0 0 rfl rfl
  simpa [scrollToLoadMore] using h

/-- Witness for C8 (amended): a constant probe of 3 against target 10
stalls after 4 iterations of a budget of 20 and returns 3. -/
theorem c8_amended_scroll_stall_budget_witness :
    (scrollToLoadMore (fun _ => 3) 10 20).1 ≤ 20 ∧
    (∀ j, j + 1 < (scrollToLoadMore (fun _ => 3) 10 20).1 →
      ¬ stlmStop (fun _ => 3) 10 j) ∧
    ((scrollToLoadMore (fun _ => 3) 10 20).1 < 20 →
      1 ≤ (scrollToLoadMore (fun _ => 3) 10 20).1 ∧
      stlmStop (fun _ => 3) 10 ((scrollToLoadMore (fun _ => 3) 10 20).1 - 1)) ∧
    (scrollToLoadMore (fun _ => 3) 10 20).2 =
      (if (scrollToLoadMore (fun _ => 3) 10 20).1 = 0 then 0
       else (fun _ => 3 : Nat → Nat)
         ((scrollToLoadMore (fun _ => 3) 10 20).1 - 1)) :=
  c8_amended_scroll_stall_budget (fun _ => 3) 10 20

/-- Counterexample to C8 as stated: a strictly decreasing probe fails to
grow at every iteration (in particular for 3 consecutive iterations), yet
the loop never stops early — it runs all `max_scrolls = 10` iterations,
because the source's stall test requires the count to be unchanged, not
merely non-growing. -/
theorem c8_counterexample_shrinking_counts :
    (scrollToLoadMore (fun i => 20 - i) 100 10).1 = 10 ∧
    (scrollToLoadMore (fun i => 20 - i) 100 10).2 = 11 ∧
    (20 - 1 ≤ 20 - 0 ∧ 20 - 2 ≤ 20 - 1 ∧ 20 - 3 ≤ 20 - 2) ∧
    ¬ ((scrollToLoadMore (fun i => 20 - i) 100 10).1 < 10) := by decide

theorem scrollGo_spec (collects : Nat → List Item) (limit : Nat) :
    ∀ (fuel m cur ng : Nat) (seen : List (String × Item)),
    cur = (loopCtr collects m).1 → ng = (loopCtr collects m).2 →
    seen = mergedSeen collects m →
    (scrollGo collects limit fuel cur ng seen (m + 1)).1 ≤ fuel ∧
    (∀ j, j + 1 < (scrollGo collects limit fuel cur ng seen (m + 1)).1 →
      ¬ stopAfter collects limit (m + 1 + j)) ∧
    ((scrollGo collects limit fuel cur ng seen (m + 1)).1 < fuel →
      1 ≤ (scrollGo collects limit fuel cur ng seen (m + 1)).1 ∧
      stopAfter collects limit
        (m + (scrollGo collects limit fuel cur ng seen (m + 1)).1)) ∧
    (scrollGo collects limit fuel cur ng seen (m + 1)).2 =
      mergedSeen collects
        (m + (scrollGo collects limit fuel cur ng seen (m + 1)).1) := by
  intro fuel
  induction fuel with
  | zero =>
      intro m cur ng seen h1 h2 h3
      subst h3
      simp [scrollGo]
  | succ fuel ih =>
      intro m cur ng seen h1 h2 h3
      subst h1; subst h2; subst h3
      have hms : mergeItems (collects (m + 1)) (mergedSeen collects m) =
          mergedSeen collects (m + 1) := rfl
      simp only [scrollGo, hms]
      by_cases hle : (mergedSeen collects (m + 1)).length ≤
          (loopCtr collects m).1
      · have hctr : loopCtr collects (m + 1) =
            ((loopCtr collects m).1, (loopCtr collects m).2 + 1) := by
          simp only [loopCtr]
          rw [if_pos hle]
        by_cases hng : 3 ≤ (loopCtr collects m).2 + 1
        · simp only [if_pos hle, if_pos hng]
          refine ⟨by omega, fun j hj => by omega, fun _ => ⟨le_refl 1, ?_⟩, ?_⟩
          · exact Or.inl (by rw [hctr]; exact hng)
          · trivial
        · by_cases hlim : limit ≤ (loopCtr collects m).1
          · simp only [if_pos hle, if_neg hng, if_pos hlim]
            refine ⟨by omega, fun j hj => by omega,
              fun _ => ⟨le_refl 1, ?_⟩, ?_⟩
            · exact Or.inr (by rw [hctr]; exact hlim)
            · trivial
          · have ihr := ih (m + 1) (loopCtr collects m).1
              ((loopCtr collects m).2 + 1) (mergedSeen collects (m + 1))
              (by rw [hctr]) (by rw [hctr]) rfl
            simp only [if_pos hle, if_neg hng, if_neg hlim]
            obtain ⟨ih1, ih2, ih3, ih4⟩ := ihr
            refine ⟨by omega, ?_, ?_, ?_⟩
            · intro j hj
              cases j with
              | zero =>
                  intro hstop
                  rcases hstop with h | h
                  · rw [hctr] at h
                    exact hng (by simpa using h)
                  · rw [hctr] at h
                    exact hlim (by simpa using h)
              | succ j2 =>
                  have hj2 : j2 + 1 < (scrollGo collects limit fuel
                      (loopCtr collects m).1 ((loopCtr collects m).2 + 1)
                      (mergedSeen collects (m + 1)) (m + 1 + 1)).1 := by
                    simpa using Nat.lt_of_succ_lt_succ hj
                  have hres := ih2 j2 hj2
                  have hidx : m + 1 + 1 + j2 = m + 1 + (j2 + 1) := by omega
                  rw [hidx] at hres
                  simpa using hres
            · intro hlt
              have hlt2 : (scrollGo collects limit fuel
                  (loopCtr collects m).1 ((loopCtr collects m).2 + 1)
                  (mergedSeen collects (m + 1)) (m + 1 + 1)).1 < fuel := by
                simpa using Nat.lt_of_succ_lt_succ hlt
              obtain ⟨hge, hstop⟩ := ih3 hlt2
              refine ⟨by omega, ?_⟩
              have hidx : m + 1 + (scrollGo collects limit fuel
                  (loopCtr collects m).1 ((loopCtr collects m).2 + 1)
                  (mergedSeen collects (m + 1)) (m + 1 + 1)).1 =
                  m + ((scrollGo collects limit fuel (loopCtr collects m).1
                    ((loopCtr collects m).2 + 1) (mergedSeen collects (m + 1))
                    (m + 1 + 1)).1 + 1) := by omega
              rw [hidx] at hstop
              exact hstop
            · rw [ih4]
              congr 1
              omega
      · have hctr : loopCtr collects (m + 1) =
            ((mergedSeen collects (m + 1)).length, 0) := by
          simp only [loopCtr]
          rw [if_neg hle]
        by_cases hlim2 : limit ≤ (mergedSeen collects (m + 1)).length
        · simp only [if_neg hle, if_pos hlim2]
          refine ⟨by omega, fun j hj => by omega, fun _ => ⟨le_refl 1, ?_⟩, ?_⟩
          · exact Or.inr (by rw [hctr]; exact hlim2)
          · trivial
        · have ihr := ih (m + 1) (mergedSeen collects (m + 1)).length 0
            (mergedSeen collects (m + 1)) (by rw [hctr]) (by rw [hctr]) rfl
          simp only [if_neg hle, if_neg hlim2]
          obtain ⟨ih1, ih2, ih3, ih4⟩ := ihr
          refine ⟨by omega, ?_, ?_, ?_⟩
          · intro j hj
            cases j with
            | zero =>
                intro hstop
                rcases hstop with h | h
                · rw [hctr] at h
                  simp at h
                · rw [hctr] at h
                  exact hlim2 (by simpa using h)
            | succ j2 =>
                have hj2 : j2 + 1 < (scrollGo collects limit fuel
                    (mergedSeen collects (m + 1)).length 0
                    (mergedSeen collects (m + 1)) (m + 1 + 1)).1 := by
                  simpa using Nat.lt_of_succ_lt_succ hj
                have hres := ih2 j2 hj2
                have hidx : m + 1 + 1 + j2 = m + 1 + (j2 + 1) := by omega
                rw [hidx] at hres
                simpa using hres
          · intro hlt
            have hlt2 : (scrollGo collects limit fuel
                (mergedSeen collects (m + 1)).length 0
                (mergedSeen collects (m + 1)) (m + 1 + 1)).1 < fuel := by
              simpa using Nat.lt_of_succ_lt_succ hlt
            obtain ⟨hge, hstop⟩ := ih3 hlt2
            refine ⟨by omega, ?_⟩
            have hidx : m + 1 + (scrollGo collects limit fuel
                (mergedSeen collects (m + 1)).length 0
                (mergedSeen collects (m + 1)) (m + 1 + 1)).1 =
                m + ((scrollGo collects limit fuel
                  (mergedSeen collects (m + 1)).length 0
                  (mergedSeen collects (m + 1)) (m + 1 + 1)).1 + 1) := by omega
            rw [hidx] at hstop
            exact hstop
          · rw [ih4]
            congr 1
            omega

/-- C6: when `search` reaches its collection phase (no wall, results
present), the scroll loop performs at most
`min(40, max(5, ceil(limit/10) + 6))` iterations (with `(limit + 9) / 10`
the ceiling of `limit / 10`); if `limit` does not exceed the initial
unique count no scroll iteration is performed; the loop never runs past a
stop point (3 consecutive no-growth iterations or unique count at
`limit`), and an early exit happens only at such a stop point. -/
theorem c6_search_scroll_budget (cfg : RateLimitConfig) (rl0 : RateLimiter)
    (p : PageScript) (ct : String) (limit : Nat) (now u0 u1 u2 : ℚ)
    (d1 d2 : Nat)
    (hlogin : isLoginRequired p = Except.ok false)
    (hchal : checkForChallenge p = false)
    (hwait : p.waitForResults = true) :
    (searchRun cfg rl0 p ct limit now u0 u1 u2 d1 d2).scrollIters ≤
      min 40 (max 5 ((limit + 9) / 10 + 6)) ∧
    (limit ≤ (mergedSeen p.collects 0).length →
      (searchRun cfg rl0 p ct limit now u0 u1 u2 d1 d2).scrollIters = 0) ∧
    (∀ j, j + 1 <
        (searchRun cfg rl0 p ct limit now u0 u1 u2 d1 d2).scrollIters →
      ¬ stopAfter p.collects limit (j + 1)) ∧
    ((mergedSeen p.collects 0).length < limit →
      (searchRun cfg rl0 p ct limit now u0 u1 u2 d1 d2).scrollIters <
        searchMaxScrolls limit →
      1 ≤ (searchRun cfg rl0 p ct limit now u0 u1 u2 d1 d2).scrollIters ∧
      stopAfter p.collects limit
        (searchRun cfg rl0 p ct limit now u0 u1 u2 d1 d2).scrollIters) := by
  have hiters : (searchRun cfg rl0 p ct limit now u0 u1 u2 d1 d2).scrollIters =
      (if (mergedSeen p.collects 0).length < limit then
        scrollGo p.collects limit (searchMaxScrolls limit)
          (mergedSeen p.collects 0).length 0 (mergedSeen p.collects 0) 1
      else ((0 : Nat), mergedSeen p.collects 0)).1 := by
    simp [searchRun, hlogin, hchal, hwait]
  by_cases h0 : (mergedSeen p.collects 0).length < limit
  · have hs := scrollGo_spec p.collects limit (searchMaxScrolls limit) 0
      (mergedSeen p.collects 0).length 0 (mergedSeen p.collects 0) rfl rfl rfl
    rw [hiters, if_pos h0]
    obtain ⟨hs1, hs2, hs3, _⟩ := hs
    refine ⟨?_, ?_, ?_, ?_⟩
    · exact hs1
    · intro hle
      omega
    · intro j hj
      have hj2 : j + 1 < (scrollGo p.collects limit (searchMaxScrolls limit)
          (mergedSeen p.collects 0).length 0 (mergedSeen p.collects 0)
          (0 + 1)).1 := by simpa using hj
      have hres := hs2 j hj2
      have hidx : 0 + 1 + j = j + 1 := by omega
      rw [hidx] at hres
      exact hres
    · intro _ hlt
      have hlt2 : (scrollGo p.collects limit (searchMaxScrolls limit)
          (mergedSeen p.collects 0).length 0 (mergedSeen p.collects 0)
          (0 + 1)).1 < searchMaxScrolls limit := by simpa using hlt
      obtain ⟨hge, hstop⟩ := hs3 hlt2
      constructor
      · simpa using hge
      · simpa using hstop
  · rw [hiters, if_neg h0]
    exact ⟨by simp, fun _ => rfl, fun j hj => by simp at hj,
      fun hlt _ => absurd hlt h0⟩

/-- Witness for C6: the one-item stall page with limit 2 scrolls exactly
3 times (three consecutive no-growth iterations) inside its budget of 7. -/
theorem c6_search_scroll_budget_witness :
    (searchRun defaultConfig freshRL stallPage "all" 2 0 0 0 0
        30 30).scrollIters ≤ min 40 (max 5 ((2 + 9) / 10 + 6)) ∧
    (2 ≤ (mergedSeen stallPage.collects 0).length →
      (searchRun defaultConfig freshRL stallPage "all" 2 0 0 0 0
        30 30).scrollIters = 0) ∧
    (∀ j, j + 1 <
        (searchRun defaultConfig freshRL stallPage "all" 2 0 0 0 0
          30 30).scrollIters →
      ¬ stopAfter stallPage.collects 2 (j + 1)) ∧
    ((mergedSeen stallPage.collects 0).length < 2 →
      (searchRun defaultConfig freshRL stallPage "all" 2 0 0 0 0
        30 30).scrollIters < searchMaxScrolls 2 →
      1 ≤ (searchRun defaultConfig freshRL stallPage "all" 2 0 0 0 0
        30 30).scrollIters ∧
      stopAfter stallPage.collects 2
        (searchRun defaultConfig freshRL stallPage "all" 2 0 0 0 0
          30 30).scrollIters) :=
  c6_search_scroll_budget defaultConfig freshRL stallPage "all" 2 0 0 0 0
    30 30 (by decide) (by decide) rfl

theorem aggregateFA_append (xs ys :
    List (Option PostData × Option FetchErr × Option (Except String String))) :
    aggregateFA (xs ++ ys) =
      ((aggregateFA xs).1 ++ (aggregateFA ys).1,
       (aggregateFA xs).2.1 ++ (aggregateFA ys).2.1,
       (aggregateFA xs).2.2 ++ (aggregateFA ys).2.2) := by
  induction xs with
  | nil => simp [aggregateFA]
  | cons x rest ih =>
      obtain ⟨pd, err, an⟩ := x
      simp [aggregateFA, ih, List.append_assoc]

theorem aggregateFA_ok_batch (fetch : String → Except String IgPost)
    (analyze : String → Except String String) :
    ∀ l : List String, (∀ c ∈ l, ∃ pp, fetch c = Except.ok pp) →
    (aggregateFA (l.map (processOne fetch analyze))).1.length = l.length ∧
    (aggregateFA (l.map (processOne fetch analyze))).2.1 = [] ∧
    ∀ c ∈ l, ∃ pd,
      pd ∈ (aggregateFA (l.map (processOne fetch analyze))).1 ∧
      pd.shortcode = c ∧
      (optFalsy pd.video_url = false → pd.analysis ≠ none) := by
  intro l
  induction l with
  | nil => simp [aggregateFA]
  | cons c rest ih =>
      intro h
      obtain ⟨pp, hpp⟩ := h c (List.mem_cons_self _ _)
      obtain ⟨ihlen, iherr, ihmem⟩ :=
        ih fun c2 hc2 => h c2 (List.mem_cons_of_mem _ hc2)
      have hfs : fetchSingle fetch c = (some (builtPost c pp), none) := by
        simp [fetchSingle, hpp]
      by_cases hv : optFalsy (builtPost c pp).video_url
      · have hproc : processOne fetch analyze c =
            (some (builtPost c pp), none, none) := by
          simp [processOne, hfs, hv]
        refine ⟨?_, ?_, ?_⟩
        · rw [List.map_cons, hproc]
          simp [aggregateFA, ihlen]
        · rw [List.map_cons, hproc]
          simp [aggregateFA, iherr]
        · intro c2 hc2
          rcases List.mem_cons.mp hc2 with hc2 | hc2
          · subst hc2
            refine ⟨builtPost c2 pp, ?_, rfl, ?_⟩
            · rw [List.map_cons, hproc]
              simp [aggregateFA]
            · intro hfalse
              rw [hfalse] at hv
              simp at hv
          · obtain ⟨pd, hmem, hsc, hana⟩ := ihmem c2 hc2
            refine ⟨pd, ?_, hsc, hana⟩
            rw [List.map_cons, hproc]
            simp [aggregateFA, hmem]
      · have hproc : processOne fetch analyze c =
            (some (builtPost c pp), none,
             some (analyze ((builtPost c pp).video_url.getD ""))) := by
          simp [processOne, hfs, hv]
        refine ⟨?_, ?_, ?_⟩
        · rw [List.map_cons, hproc]
          simp [aggregateFA, ihlen]
        · rw [List.map_cons, hproc]
          simp [aggregateFA, iherr]
        · intro c2 hc2
          rcases List.mem_cons.mp hc2 with hc2 | hc2
          · subst hc2
            refine ⟨attachAnalysis (builtPost c2 pp)
                (analyze ((builtPost c2 pp).video_url.getD "")),
              ?_, rfl, ?_⟩
            · rw [List.map_cons, hproc]
              simp [aggregateFA, attachAnalysis]
            · intro _
              simp [attachAnalysis]
          · obtain ⟨pd, hmem, hsc, hana⟩ := ihmem c2 hc2
            refine ⟨pd, ?_, hsc, hana⟩
            rw [List.map_cons, hproc]
            simp [aggregateFA, hmem]

/-- C7: in the fetch-and-analyze pipeline, when exactly one identifier of
the batch fails to fetch, the aggregated response reports `fetched` equal
to the number of successful fetches, the failed identifier appears (with
its error text) in the error-detail list, and every other identifier is
fetched into the `posts` list and — when its record carries a truthy
video URL — carries an attached analysis. -/
theorem c7_pipeline_error_isolation (fetch : String → Except String IgPost)
    (analyze : String → Except String String)
    (l1 l2 : List String) (bad emsg : String)
    (hbad : fetch bad = Except.error emsg)
    (h1 : ∀ c ∈ l1, ∃ pp, fetch c = Except.ok pp)
    (h2 : ∀ c ∈ l2, ∃ pp, fetch c = Except.ok pp) :
    (fetchAndAnalyzePosts (l1 ++ bad :: l2) fetch analyze).fetched =
      l1.length + l2.length ∧
    (fetchAndAnalyzePosts (l1 ++ bad :: l2) fetch analyze).errors = 1 ∧
    ({ shortcode := bad, error := emsg } : FetchErr) ∈
      (fetchAndAnalyzePosts (l1 ++ bad :: l2) fetch analyze).error_details ∧
    ∀ c ∈ l1 ++ l2, ∃ pd,
      pd ∈ (fetchAndAnalyzePosts (l1 ++ bad :: l2) fetch analyze).posts ∧
      pd.shortcode = c ∧
      (optFalsy pd.video_url = false → pd.analysis ≠ none) := by
  have hbadproc : processOne fetch analyze bad =
      (none, some { shortcode := bad, error := emsg }, none) := by
    simp [processOne, fetchSingle, hbad]
  obtain ⟨len1, err1, mem1⟩ := aggregateFA_ok_batch fetch analyze l1 h1
  obtain ⟨len2, err2, mem2⟩ := aggregateFA_ok_batch fetch analyze l2 h2
  have hsplit : aggregateFA (l1.map (processOne fetch analyze) ++
      processOne fetch analyze bad :: l2.map (processOne fetch analyze)) =
      ((aggregateFA (l1.map (processOne fetch analyze))).1 ++
         (aggregateFA (l2.map (processOne fetch analyze))).1,
       (aggregateFA (l1.map (processOne fetch analyze))).2.1 ++
         ({ shortcode := bad, error := emsg } ::
           (aggregateFA (l2.map (processOne fetch analyze))).2.1),
       (aggregateFA (l1.map (processOne fetch analyze))).2.2 ++
         (aggregateFA (l2.map (processOne fetch analyze))).2.2) := by
    rw [aggregateFA_append, hbadproc]
    simp [aggregateFA]
  refine ⟨?_, ?_, ?_, ?_⟩
  · simp [fetchAndAnalyzePosts, hsplit, len1, len2]
  · simp [fetchAndAnalyzePosts, hsplit, err1, err2]
  · simp [fetchAndAnalyzePosts, hsplit]
  · intro c hc
    rcases List.mem_append.mp hc with hc | hc
    · obtain ⟨pd, hmem, hsc, hana⟩ := mem1 c hc
      exact ⟨pd, by simp [fetchAndAnalyzePosts, hsplit, hmem], hsc, hana⟩
    · obtain ⟨pd, hmem, hsc, hana⟩ := mem2 c hc
      exact ⟨pd, by simp [fetchAndAnalyzePosts, hsplit, hmem], hsc, hana⟩

/-- Witness for C7: a batch of five shortcodes in which only "bad" fails:
the response reports four fetches, "bad" in the error details, and the
other four fetched with analyses attached. -/
theorem c7_pipeline_error_isolation_witness :
    (fetchAndAnalyzePosts (["a", "b"] ++ "bad" :: ["c", "d"]) wFetch
      wAnalyze).fetched = (["a", "b"] : List String).length +
        (["c", "d"] : List String).length ∧
    (fetchAndAnalyzePosts (["a", "b"] ++ "bad" :: ["c", "d"]) wFetch
      wAnalyze).errors = 1 ∧
    ({ shortcode := "bad", error := "boom" } : FetchErr) ∈
      (fetchAndAnalyzePosts (["a", "b"] ++ "bad" :: ["c", "d"]) wFetch
        wAnalyze).error_details ∧
    ∀ c ∈ ["a", "b"] ++ ["c", "d"], ∃ pd,
      pd ∈ (fetchAndAnalyzePosts (["a", "b"] ++ "bad" :: ["c", "d"]) wFetch
        wAnalyze).posts ∧
      pd.shortcode = c ∧
      (optFalsy pd.video_url = false → pd.analysis ≠ none) :=
  c7_pipeline_error_isolation wFetch wAnalyze ["a", "b"] ["c", "d"] "bad"
    "boom" (by decide)
    (by
      intro c hc
      rcases List.mem_cons.mp hc with hc | hc
      · subst hc; exact ⟨wPost, by decide⟩
      · rw [List.mem_singleton] at hc; subst hc; exact ⟨wPost, by decide⟩)
    (by
      intro c hc
      rcases List.mem_cons.mp hc with hc | hc
      · subst hc; exact ⟨wPost, by decide⟩
      · rw [List.mem_singleton] at hc; subst hc; exact ⟨wPost, by decide⟩)

end Socialbot
